import Mathlib

/-!
Verification of the evaluation core of the apollo on-chain query DSL
(`src/dsl/schema.go`, package `dsl`).

The Go code is shallowly embedded as follows.

* `cty.Value` (the dynamic value model of the expression engine) becomes the
  inductive `CtyValue` with constructors for the zero value (`cty.NilVal`),
  strings, numbers, booleans and lists.
* `map[string]cty.Value` becomes an association list `VarMap` with
  insert-or-replace (`upsert`) semantics; `alookup` is map lookup.  Go map
  iteration order is unobservable for the operations modelled here because a
  merge writes each distinct key once.
* Undecoded HCL bodies (`hcl.Body` fields that are decoded later against an
  evaluation context, such as `Transform.Options`, `Save.Options`, the filter
  body and the loop template) become functions `HclBody α` from an evaluation
  context to `Except String α`: decoding a body against a context either
  produces a value or the first diagnostic, exactly how `gohcl.DecodeBody` /
  `hcldec.Decode` are used by the source.
* `*hcl.EvalContext` values are shared by pointer between a schema and all of
  its queries, and are mutated in place.  Pointers are modelled by a heap: a
  `DynamicSchema` carries `CtxHeap : List EvalContext`, and each query holds an
  index (`EvalContextRef : Nat`) into that heap.  In-place mutation becomes
  writing the heap slot.
* `common.Address` (go-ethereum) is a 160-bit value, modelled as a `Nat`
  reduced mod 2^160.  `common.HexToAddress` parses a hex string taking the
  last 20 bytes; `Address.String` renders `0x` plus 40 hex digits.  The EIP-55
  letter-casing of `Address.String` is modelled as plain lowercase hex (the
  casing is a bijective presentation detail; concrete inputs used below use
  digit-only addresses, on which the two renderings agree).
* `int64` / `uint64` / big integers become `Int`; hashes (`common.Hash`) are
  modelled by their already-rendered hex string, since the source only ever
  uses `Hash.String()`.

Structure fields keep the Go source's names (including capitalization) except
where noted by a comment.
-/

inductive CtyValue where
  | nilVal : CtyValue
  | str : String → CtyValue
  | num : Int → CtyValue
  | boolV : Bool → CtyValue
  | list : List CtyValue → CtyValue
deriving Repr

mutual

def CtyValue.beq : CtyValue → CtyValue → Bool
  | CtyValue.nilVal, CtyValue.nilVal => true
  | CtyValue.str a, CtyValue.str b => a == b
  | CtyValue.num a, CtyValue.num b => a == b
  | CtyValue.boolV a, CtyValue.boolV b => a == b
  | CtyValue.list a, CtyValue.list b => CtyValue.beqList a b
  | _, _ => false

def CtyValue.beqList : List CtyValue → List CtyValue → Bool
  | [], [] => true
  | a :: as, b :: bs => CtyValue.beq a b && CtyValue.beqList as bs
  | _, _ => false

end

mutual

theorem CtyValue.beq_iff : ∀ a b : CtyValue, CtyValue.beq a b = true ↔ a = b
  | CtyValue.nilVal, CtyValue.nilVal => by simp [CtyValue.beq]
  | CtyValue.nilVal, CtyValue.str _ => by simp [CtyValue.beq]
  | CtyValue.nilVal, CtyValue.num _ => by simp [CtyValue.beq]
  | CtyValue.nilVal, CtyValue.boolV _ => by simp [CtyValue.beq]
  | CtyValue.nilVal, CtyValue.list _ => by simp [CtyValue.beq]
  | CtyValue.str _, CtyValue.nilVal => by simp [CtyValue.beq]
  | CtyValue.str a, CtyValue.str b => by simp [CtyValue.beq]
  | CtyValue.str _, CtyValue.num _ => by simp [CtyValue.beq]
  | CtyValue.str _, CtyValue.boolV _ => by simp [CtyValue.beq]
  | CtyValue.str _, CtyValue.list _ => by simp [CtyValue.beq]
  | CtyValue.num _, CtyValue.nilVal => by simp [CtyValue.beq]
  | CtyValue.num _, CtyValue.str _ => by simp [CtyValue.beq]
  | CtyValue.num a, CtyValue.num b => by simp [CtyValue.beq]
  | CtyValue.num _, CtyValue.boolV _ => by simp [CtyValue.beq]
  | CtyValue.num _, CtyValue.list _ => by simp [CtyValue.beq]
  | CtyValue.boolV _, CtyValue.nilVal => by simp [CtyValue.beq]
  | CtyValue.boolV _, CtyValue.str _ => by simp [CtyValue.beq]
  | CtyValue.boolV _, CtyValue.num _ => by simp [CtyValue.beq]
  | CtyValue.boolV a, CtyValue.boolV b => by simp [CtyValue.beq]
  | CtyValue.boolV _, CtyValue.list _ => by simp [CtyValue.beq]
  | CtyValue.list _, CtyValue.nilVal => by simp [CtyValue.beq]
  | CtyValue.list _, CtyValue.str _ => by simp [CtyValue.beq]
  | CtyValue.list _, CtyValue.num _ => by simp [CtyValue.beq]
  | CtyValue.list _, CtyValue.boolV _ => by simp [CtyValue.beq]
  | CtyValue.list a, CtyValue.list b => by
      simp only [CtyValue.beq, CtyValue.list.injEq]
      exact CtyValue.beqList_iff a b

theorem CtyValue.beqList_iff : ∀ as bs : List CtyValue, CtyValue.beqList as bs = true ↔ as = bs
  | [], [] => by simp [CtyValue.beqList]
  | [], _ :: _ => by simp [CtyValue.beqList]
  | _ :: _, [] => by simp [CtyValue.beqList]
  | a :: as, b :: bs => by
      simp only [CtyValue.beqList, Bool.and_eq_true, List.cons.injEq]
      exact and_congr (CtyValue.beq_iff a b) (CtyValue.beqList_iff as bs)

end

instance : DecidableEq CtyValue :=
  fun a b => decidable_of_iff (CtyValue.beq a b = true) (CtyValue.beq_iff a b)

/-- A context function value.  The builtin functions and the chain functions
registered by `EvalSave` are never invoked by the core itself, so only their
identity (which closure, closed over which chain and block) is modelled. -/
inductive CtyFunction where
  | builtin (name : String)
  | balance (chain : String) (blockNumber : Int)
  | tokenBalance (chain : String) (blockNumber : Int)
deriving Repr, DecidableEq

abbrev VarMap := List (String × CtyValue)

abbrev FunMap := List (String × CtyFunction)

/-- `hcl.EvalContext`: a variable table and a function table. -/
structure EvalContext where
  Variables : VarMap
  Functions : FunMap
deriving Repr, DecidableEq

/-- An undecoded HCL body, decoded on demand against an evaluation context
(`gohcl.DecodeBody` / `hcldec.Decode`): either a decoded value or the first
diagnostic. -/
def HclBody (α : Type) : Type := EvalContext → Except String α

/-- Map lookup on an association list (the extensional content of a Go map). -/
def alookup {α : Type} : List (String × α) → String → Option α
  | [], _ => none
  | (k', v) :: rest, k => if k' = k then some v else alookup rest k

/-- Insert-or-replace of one key (a single Go map assignment `m[k] = v`). -/
def upsert {α : Type} : List (String × α) → String → α → List (String × α)
  | [], k, v => [(k, v)]
  | (k', v') :: rest, k, v =>
    if k' = k then (k, v) :: rest else (k', v') :: upsert rest k v

/-- Merge every entry of `entries` into `m` (the Go idiom
`for k, v := range entries { m[k] = v }`). -/
def upsertAll {α : Type} (m : List (String × α)) (entries : List (String × α)) :
    List (String × α) :=
  entries.foldl (fun acc kv => upsert acc kv.1 kv.2) m

/-- One hexadecimal digit, or `none` (`encoding/hex` digit decoding). -/
def hexDigitValue (c : Char) : Option Nat :=
  if '0' ≤ c ∧ c ≤ '9' then some (c.toNat - '0'.toNat)
  else if 'a' ≤ c ∧ c ≤ 'f' then some (c.toNat - 'a'.toNat + 10)
  else if 'A' ≤ c ∧ c ≤ 'F' then some (c.toNat - 'A'.toNat + 10)
  else none

/-- Decode hex character pairs into bytes, stopping at the first invalid pair
(`hex.DecodeString` keeps the bytes decoded before an error, and
`common.Hex2Bytes` discards the error). -/
def hexBytes : List Char → List Nat
  | c1 :: c2 :: rest =>
    match hexDigitValue c1, hexDigitValue c2 with
    | some hi, some lo => (16 * hi + lo) :: hexBytes rest
    | _, _ => []
  | _ => []

/-- `common.HexToAddress`: strip an optional `0x`/`0X` prefix, left-pad to an
even number of digits, decode bytes, and keep the last 20 bytes (here: the
value mod 2^160). -/
def HexToAddress (s : String) : Nat :=
  let cs := s.data
  let cs := if cs.take 2 = ['0', 'x'] ∨ cs.take 2 = ['0', 'X'] then cs.drop 2 else cs
  let cs := if cs.length % 2 = 1 then '0' :: cs else cs
  ((hexBytes cs).foldl (fun acc b => acc * 256 + b) 0) % 2 ^ 160

def hexCharOf (n : Nat) : Char :=
  if n < 10 then Char.ofNat ('0'.toNat + n) else Char.ofNat ('a'.toNat + n - 10)

def hexChars : Nat → Nat → List Char
  | 0, _ => []
  | k + 1, n => hexChars k (n / 16) ++ [hexCharOf (n % 16)]

/-- `common.Address.String`: `0x` plus the 40 hex digits of the 160-bit value
(EIP-55 letter casing modelled as lowercase, see the header comment). -/
def addressString (a : Nat) : String :=
  "0x" ++ String.mk (hexChars 40 (a % 2 ^ 160))

/-- Modelled from the spec: `types.ResultType` (package `types` is outside the
provided source).  A result is a method call, a contract-scoped event, or a
global event (§6: result kind method / contract-event / global-event). -/
inductive ResultType where
  | Method : ResultType
  | ContractEvent : ResultType
  | GlobalEvent : ResultType
deriving Repr, DecidableEq

/-- Modelled from the spec: a raw named input/output value of a call/event
result; §6: values are contract addresses, strings, or numeric types. -/
inductive GoValue where
  | str : String → GoValue
  | addr : Nat → GoValue
  | num : Int → GoValue
deriving Repr, DecidableEq

/-- Modelled from the spec: `types.CallResult` (package `types` is outside the
provided source).  §6: a record identifying owning query name, result kind, a
matching identifier (address or event output-identifier), chain id, block
number, timestamp, block hash, and — for event kinds — transaction hash,
transaction index, event name; plus named raw inputs and outputs.  Hashes are
modelled by their rendered hex strings (only `.String()` is used on them). -/
structure CallResult where
  QueryName : String
  -- Go field `Type` (a Lean keyword).
  Type_ : ResultType
  Identifier : String
  ContractAddress : Nat
  BlockNumber : Int
  Timestamp : Int
  BlockHash : String
  Chain : String
  TxHash : String
  EventName : String
  TxIndex : Int
  Inputs : List (String × GoValue)
  Outputs : List (String × GoValue)
deriving Repr, DecidableEq

/-- Modelled from the spec: the options handed to `Validate`; only the
realtime flag is consulted by the source. -/
structure ApolloOpts where
  Realtime : Bool
deriving Repr, DecidableEq

/-- The three validation errors (`ErrNoIntervalRealtime`,
`ErrNoIntervalHistorical`, `ErrIntervalDefinedForHistoricalEvents`). -/
inductive SchemaError where
  | noIntervalRealtime : SchemaError
  | noIntervalHistorical : SchemaError
  | intervalDefinedForHistoricalEvents : SchemaError
deriving Repr, DecidableEq

/-- `Transform`: a deferred body, decoded later into a `map[string]cty.Value`. -/
structure Transform where
  Options : HclBody VarMap

/-- `Save`: a deferred body, decoded later into a `map[string]cty.Value`. -/
structure Save where
  Options : HclBody VarMap

structure MethodSchema where
  BlockOffset : Int
  Name_ : String
  Inputs_ : List (String × String)
  Outputs : List String
deriving Repr, DecidableEq

structure EventSchema where
  Name_ : String
  AbiPath : String
  Outputs_ : List String
  Methods : List MethodSchema
  Transforms : Option Transform
  -- `Abi abi.ABI`: the parsed descriptor, attached post-load.  Its contents
  -- are irrelevant to this core, so attachment is a unit marker.
  Abi : Option Unit

structure ContractSchema where
  Address_ : String
  AbiPath : String
  Methods : List MethodSchema
  Events : List EventSchema
  Transforms : Option Transform
  Abi : Option Unit

def ContractSchema.Address (c : ContractSchema) : Nat :=
  HexToAddress c.Address_

def EventSchema.OutputName (e : EventSchema) : String :=
  e.Name_ ++ "_events"

structure QuerySchema where
  Name : String
  -- `types.Chain` is a string-typed chain identifier.
  Chain : String
  ContractSchemas : List ContractSchema
  EventSchemas : List EventSchema
  Saves : Save
  -- `Filters hcl.Body` is nil-able; a present body decodes (via an
  -- `hcldec.AttrSpec` of type list-of-bool followed by `gocty.FromCtyValue`)
  -- into a `[]bool`.
  Filters : Option (HclBody (List Bool))
  StartBlock : Int
  EndBlock : Int
  BlockInterval : Int
  -- Go: `EvalContext *hcl.EvalContext`, a pointer into the context heap.
  EvalContextRef : Nat

/-- The decoded `loop` block.  Go field `QuerySchema hcl.Body` is renamed
`QuerySchemaBody` to avoid clashing with the type name. -/
structure LoopSchema where
  Items : List CtyValue
  QuerySchemaBody : HclBody (List QuerySchema)

/-- The anonymous `topLevel` struct of `NewSchema`: either a loop or directly
declared queries. -/
structure TopLevelSchema where
  Loop : Option LoopSchema
  Queries : List QuerySchema

/-- The result of the first `gohcl.DecodeBody(file.Body, ctx, s)` in
`NewSchema`: the top-level scalar fields, the `variables` mapping, and the
undecoded remainder (`SchemaConfig hcl.Body`). -/
structure SchemaFileFields where
  StartTime : Int
  EndTime : Int
  TimeInterval : Int
  StartBlock : Int
  EndBlock : Int
  BlockInterval : Int
  Variables : VarMap
  SchemaConfig : HclBody TopLevelSchema

structure DynamicSchema where
  StartTime : Int
  EndTime : Int
  TimeInterval : Int
  StartBlock : Int
  EndBlock : Int
  BlockInterval : Int
  Variables : VarMap
  SchemaConfig : HclBody TopLevelSchema
  QuerySchemas : List QuerySchema
  -- Go: `EvalContext *hcl.EvalContext`; the schema's shared context pointer,
  -- as an index into `CtxHeap`.
  EvalContextRef : Nat
  CtxHeap : List EvalContext

def emptyEvalContext : EvalContext :=
  { Variables := [], Functions := [] }

/-- Dereference a context pointer. -/
def ctxGet (heap : List EvalContext) (i : Nat) : EvalContext :=
  heap.getD i emptyEvalContext

/-- In-place mutation of the context a pointer refers to. -/
def ctxSet (heap : List EvalContext) (i : Nat) (c : EvalContext) : List EvalContext :=
  heap.set i c

/-- Modelled from the spec: the builtin function table (`dsl.Functions`,
defined outside the provided source; the source's comment names `upper`,
`lower` as examples of the basic functions it provides). -/
def Functions : FunMap :=
  [("upper", CtyFunction.builtin "upper"), ("lower", CtyFunction.builtin "lower")]

/-- `InitialContext`: the builtin functions plus the single variable `now`
(current unix time in seconds, passed in as `now` since `time.Now` is an
effect). -/
def InitialContext (now : Int) : EvalContext :=
  { Functions := Functions, Variables := [("now", CtyValue.num now)] }

/-- Modelled from the spec: the injected capability provider (§6), exposing
`Balance(chain, address, blockNumber)` and
`TokenBalance(chain, account, token, blockNumber)`.  This core only wires its
functions into contexts and never calls them. -/
structure ChainFunctionProvider where
  Balance : String → Nat → Int → Int
  TokenBalance : String → Nat → Nat → Int → Int

/-- Modelled from the spec: `BuildChainFunctions` (defined outside the
provided source) registers the chain-query functions, closed over the
result's chain and block number (§4.3 step 3).  A function value is modelled
by the identity of its captured chain and block (the single injected provider
is not part of the value). -/
def BuildChainFunctions (_provider : ChainFunctionProvider) (chain : String)
    (blockNumber : Int) : FunMap :=
  [("balance", CtyFunction.balance chain blockNumber),
   ("token_balance", CtyFunction.tokenBalance chain blockNumber)]

/-- The `switch v.(type)` over a raw input value in `GenerateContextVars`:
strings convert via `gocty.ToCtyValue(v, cty.String)`; everything else is fed
to `gocty.ToCtyValue(v, cty.Number)`, which succeeds on numeric types and
fails on a `common.Address` (a byte-array kind) — the error is discarded and
the map entry keeps the zero value `cty.NilVal`. -/
def inputContextVar (v : GoValue) : CtyValue :=
  match v with
  | GoValue.str s => CtyValue.str s
  | GoValue.num n => CtyValue.num n
  | GoValue.addr _ => CtyValue.nilVal

/-- The `switch v := v.(type)` over a raw output value in
`GenerateContextVars`: a `common.Address` is stringified first, strings map to
strings, everything else converts as a number. -/
def outputContextVar (v : GoValue) : CtyValue :=
  match v with
  | GoValue.addr a => CtyValue.str (addressString a)
  | GoValue.str s => CtyValue.str s
  | GoValue.num n => CtyValue.num n

/-- `GenerateContextVars`: convert a `CallResult` into context variables. -/
def GenerateContextVars (cr : CallResult) : VarMap :=
  let m : VarMap := []
  let m := upsert m "contract_address" (CtyValue.str (addressString cr.ContractAddress))
  let m := upsert m "blocknumber" (CtyValue.num cr.BlockNumber)
  let m := upsert m "timestamp" (CtyValue.num cr.Timestamp)
  let m := upsert m "block_hash" (CtyValue.str cr.BlockHash)
  let m := upsert m "chain" (CtyValue.str cr.Chain)
  let m := if cr.Type_ ≠ ResultType.Method then
      upsert (upsert (upsert m "tx_hash" (CtyValue.str cr.TxHash))
        "event_name" (CtyValue.str cr.EventName)) "tx_index" (CtyValue.num cr.TxIndex)
    else m
  let m := cr.Inputs.foldl (fun acc kv => upsert acc kv.1 (inputContextVar kv.2)) m
  cr.Outputs.foldl (fun acc kv => upsert acc kv.1 (outputContextVar kv.2)) m

/-- Merge a decoded transform map into the context's variable table
(`for k, v := range mv { q.EvalContext.Variables[k] = v }`). -/
def mergeVariables (ctx : EvalContext) (mv : VarMap) : EvalContext :=
  { ctx with Variables := upsertAll ctx.Variables mv }

/-- The `else` branch of `EvalTransforms`: walk the contract schemas.  A
contract without a transform block ends the walk (`return nil`); a matching
contract's transform body is decoded and merged in place; a decode failure
returns its first diagnostic, keeping the merges already performed. -/
def evalTransformsContracts :
    List ContractSchema → String → EvalContext → EvalContext × Option String
  | [], _, ctx => (ctx, none)
  | c :: rest, identifier, ctx =>
    match c.Transforms with
    | none => (ctx, none)
    | some t =>
      if addressString c.Address = identifier then
        match t.Options ctx with
        | Except.error e => (ctx, some e)
        | Except.ok mv => evalTransformsContracts rest identifier (mergeVariables ctx mv)
      else evalTransformsContracts rest identifier ctx

/-- The `types.GlobalEvent` branch of `EvalTransforms`: walk the query's
global event schemas, matching on the event's output name. -/
def evalTransformsEvents :
    List EventSchema → String → EvalContext → EvalContext × Option String
  | [], _, ctx => (ctx, none)
  | e :: rest, identifier, ctx =>
    match e.Transforms with
    | none => (ctx, none)
    | some t =>
      if e.OutputName = identifier then
        match t.Options ctx with
        | Except.error err => (ctx, some err)
        | Except.ok mv => evalTransformsEvents rest identifier (mergeVariables ctx mv)
      else evalTransformsEvents rest identifier ctx

/-- `QuerySchema.EvalTransforms`.  The receiver's context is passed in by
value and the mutated context is returned together with the optional error
(the caller stores it back into the heap slot, modelling the in-place
mutation). -/
def EvalTransforms (q : QuerySchema) (tp : ResultType) (identifier : String)
    (ctx : EvalContext) : EvalContext × Option String :=
  if tp = ResultType.GlobalEvent then evalTransformsEvents q.EventSchemas identifier ctx
  else evalTransformsContracts q.ContractSchemas identifier ctx

/-- The context mutations `EvalSave` performs on a matching query before
running transforms: merge the result-derived variables into the variable
table and the chain functions into the function table. -/
def resultContext (provider : ChainFunctionProvider) (res : CallResult)
    (ctx : EvalContext) : EvalContext :=
  { Variables := upsertAll ctx.Variables (GenerateContextVars res),
    Functions := upsertAll ctx.Functions
      (BuildChainFunctions provider res.Chain res.BlockNumber) }

/-- The query loop of `EvalSave`, threading the context heap and the
`outputs` map (`gohcl.DecodeBody` into a map replaces its contents). -/
def evalSaveLoop (provider : ChainFunctionProvider) (res : CallResult) :
    List QuerySchema → List EvalContext → VarMap → List EvalContext × Except String VarMap
  | [], heap, outputs => (heap, Except.ok outputs)
  | q :: rest, heap, outputs =>
    if q.Name = res.QueryName then
      let ctx1 := resultContext provider res (ctxGet heap q.EvalContextRef)
      let tr := EvalTransforms q res.Type_ res.Identifier ctx1
      let heap1 := ctxSet heap q.EvalContextRef tr.1
      match tr.2 with
      | some e => (heap1, Except.error e)
      | none =>
        match q.Saves.Options tr.1 with
        | Except.error e => (heap1, Except.error e)
        | Except.ok out => evalSaveLoop provider res rest heap1 out
    else evalSaveLoop provider res rest heap outputs

/-- The query loop of `DynamicSchema.EvalFilter`: a matching query with a nil
filter body returns true immediately; otherwise the decoded `[]bool` replaces
the accumulator; after the loop, all decoded booleans must be true. -/
def evalFilterLoop (heap : List EvalContext) (queryName : String) :
    List QuerySchema → List Bool → Except String Bool
  | [], filters => Except.ok (filters.all (fun b => b))
  | q :: rest, filters =>
    if q.Name = queryName then
      match q.Filters with
      | none => Except.ok true
      | some fb =>
        match fb (ctxGet heap q.EvalContextRef) with
        | Except.error e => Except.error e
        | Except.ok bs => evalFilterLoop heap queryName rest bs
    else evalFilterLoop heap queryName rest filters

/-- `DynamicSchema.EvalFilter`. -/
def EvalFilter (s : DynamicSchema) (queryName : String) : Except String Bool :=
  evalFilterLoop s.CtxHeap queryName s.QuerySchemas []

/-- `DynamicSchema.EvalSave`: returns the (possibly mutated) schema together
with either an error, `none` (the Go `nil, nil` of a filtered-out result), or
the decoded save output map.  A fresh non-nil `outputs` map is allocated up
front, so a result matching no query yields `some []`, the empty map. -/
def EvalSave (s : DynamicSchema) (provider : ChainFunctionProvider)
    (res : CallResult) : DynamicSchema × Except String (Option VarMap) :=
  let r := evalSaveLoop provider res s.QuerySchemas s.CtxHeap []
  let s' := { s with CtxHeap := r.1 }
  (s', match r.2 with
    | Except.error e => Except.error e
    | Except.ok outputs =>
      match EvalFilter s' res.QueryName with
      | Except.error e => Except.error e
      | Except.ok true => Except.ok (some outputs)
      | Except.ok false => Except.ok none)

/-- The flag computation at the top of `Validate`: `hasMethods` and
`hasEvents` are assigned (not accumulated) for every contract of every query,
so the last contract iterated wins. -/
def validateFlags (s : DynamicSchema) : Bool × Bool :=
  s.QuerySchemas.foldl
    (fun fl q => q.ContractSchemas.foldl
      (fun _ c => (!c.Methods.isEmpty, !c.Events.isEmpty)) fl)
    (false, false)

/-- `DynamicSchema.Validate`. -/
def Validate (s : DynamicSchema) (opts : ApolloOpts) : Option SchemaError :=
  let fl := validateFlags s
  if fl.1 = true ∧ opts.Realtime = true ∧ s.BlockInterval = 0 ∧ s.TimeInterval = 0 then
    some SchemaError.noIntervalRealtime
  else if fl.1 = true ∧ ((s.StartBlock ≠ 0 ∧ s.EndBlock ≠ 0) ∨ (s.StartTime ≠ 0 ∧ s.EndTime ≠ 0))
      ∧ s.BlockInterval = 0 ∧ s.TimeInterval = 0 then
    some SchemaError.noIntervalHistorical
  else if fl.2 = true ∧ opts.Realtime = false ∧ (s.BlockInterval ≠ 0 ∨ s.TimeInterval ≠ 0) then
    some SchemaError.intervalDefinedForHistoricalEvents
  else none

/-- Run an `Except`-valued function over a list, stopping at the first error
(the Go for-loop-with-early-return used for loop items and ABI files). -/
def mapExcept {α β : Type} (f : α → Except String β) : List α → Except String (List β)
  | [] => Except.ok []
  | a :: rest =>
    match f a with
    | Except.error e => Except.error e
    | Except.ok b =>
      match mapExcept f rest with
      | Except.error e => Except.error e
      | Except.ok bs => Except.ok (b :: bs)

/-- One iteration of the loop expansion in `NewSchema`: build a fresh
`InitialContext`, replace its variable table with the single `item` binding,
and decode the loop's query template against it. -/
def loopIteration (now : Int) (lp : LoopSchema) (item : CtyValue) :
    Except String (List QuerySchema) :=
  let newCtx := { InitialContext now with Variables := [("item", item)] }
  lp.QuerySchemaBody newCtx

/-- The whole loop expansion: one decode per item, first failure aborts. -/
def expandLoop (now : Int) (lp : LoopSchema) : Except String (List (List QuerySchema)) :=
  mapExcept (loopIteration now lp) lp.Items

/-- The enriched context: the initial context with the schema's decoded
`variables` merged into its variable table. -/
def enrichedContext (now : Int) (fields : SchemaFileFields) : EvalContext :=
  { InitialContext now with
    Variables := upsertAll (InitialContext now).Variables fields.Variables }

/-- The external ABI file system, `abiFiles path = none` when `os.Open` fails,
`some false` when `abi.JSON` fails, `some true` when the file parses. -/
def loadAbiFile (abiFiles : String → Option Bool) (p : String) : Except String Unit :=
  match abiFiles p with
  | none => Except.error ("ParseV2: reading ABI file: open " ++ p)
  | some false => Except.error "ParseV2: parsing ABI"
  | some true => Except.ok ()

def loadEventAbi (abiFiles : String → Option Bool) (e : EventSchema) :
    Except String EventSchema :=
  match loadAbiFile abiFiles e.AbiPath with
  | Except.error msg => Except.error msg
  | Except.ok _ => Except.ok { e with Abi := some () }

def loadContractAbi (abiFiles : String → Option Bool) (c : ContractSchema) :
    Except String ContractSchema :=
  match loadAbiFile abiFiles c.AbiPath with
  | Except.error msg => Except.error msg
  | Except.ok _ => Except.ok { c with Abi := some () }

/-- The per-query ABI hydration of `NewSchema`: events first, then contracts. -/
def loadQueryAbis (abiFiles : String → Option Bool) (q : QuerySchema) :
    Except String QuerySchema :=
  match mapExcept (loadEventAbi abiFiles) q.EventSchemas with
  | Except.error e => Except.error e
  | Except.ok es =>
    match mapExcept (loadContractAbi abiFiles) q.ContractSchemas with
    | Except.error e => Except.error e
    | Except.ok cs => Except.ok { q with EventSchemas := es, ContractSchemas := cs }

/-- `NewSchema`.  Reading and parsing `schema.hcl` (`ioutil.ReadFile`,
`hclsyntax.ParseConfig`) are external effects; the model starts from the
parsed file body `file`.  `now` stands for the time sampled by
`InitialContext`.  The schema's context is heap slot 0, and every query —
directly declared or loop-expanded — receives that same pointer
(`query.EvalContext = s.EvalContext`). -/
def NewSchema (now : Int) (file : HclBody SchemaFileFields)
    (abiFiles : String → Option Bool) : Except String DynamicSchema :=
  match file (InitialContext now) with
  | Except.error e => Except.error e
  | Except.ok fields =>
    let ctx1 := enrichedContext now fields
    match fields.SchemaConfig ctx1 with
    | Except.error e => Except.error e
    | Except.ok top =>
      let looped := match top.Loop with
        | none => Except.ok []
        | some lp => expandLoop now lp
      match looped with
      | Except.error e => Except.error e
      | Except.ok qss =>
        match mapExcept (fun q => loadQueryAbis abiFiles { q with EvalContextRef := 0 })
            (top.Queries ++ qss.flatten) with
        | Except.error e => Except.error e
        | Except.ok qs1 =>
          Except.ok
            { StartTime := fields.StartTime, EndTime := fields.EndTime,
              TimeInterval := fields.TimeInterval, StartBlock := fields.StartBlock,
              EndBlock := fields.EndBlock, BlockInterval := fields.BlockInterval,
              Variables := fields.Variables, SchemaConfig := fields.SchemaConfig,
              QuerySchemas := qs1, EvalContextRef := 0, CtxHeap := [ctx1] }


/-! ### Characterizations and concrete instances used by the claim theorems -/

/-- Run a list of transform bodies in order against a context, merging each
decoded variable map in place; the first decode error stops the run, keeping
the merges made so far and leaving the failing body's output unmerged. -/
def runTransformList : List (HclBody VarMap) → EvalContext → EvalContext × Option String
  | [], ctx => (ctx, none)
  | b :: rest, ctx =>
    match b ctx with
    | Except.error e => (ctx, some e)
    | Except.ok mv => runTransformList rest (mergeVariables ctx mv)

/-- The transform bodies `evalTransformsContracts` actually runs: those of the
matching contracts within the prefix of contracts that all declare a
transform block (the walk returns at the first contract without one). -/
def scannedContractTransforms (cs : List ContractSchema) (identifier : String) :
    List (HclBody VarMap) :=
  ((cs.takeWhile (fun c => c.Transforms.isSome)).filter
    (fun c => addressString c.Address == identifier)).filterMap
    (fun c => c.Transforms.map (fun t => t.Options))

/-- The event analogue of `scannedContractTransforms`. -/
def scannedEventTransforms (es : List EventSchema) (identifier : String) :
    List (HclBody VarMap) :=
  ((es.takeWhile (fun e => e.Transforms.isSome)).filter
    (fun e => e.OutputName == identifier)).filterMap
    (fun e => e.Transforms.map (fun t => t.Options))

/-- The transform bodies `EvalTransforms` actually runs for a result kind and
identifier. -/
def scannedTransforms (q : QuerySchema) (tp : ResultType) (identifier : String) :
    List (HclBody VarMap) :=
  if tp = ResultType.GlobalEvent then scannedEventTransforms q.EventSchemas identifier
  else scannedContractTransforms q.ContractSchemas identifier

/-- How many nodes of the relevant kind match the identifier. -/
def matchingNodeCount (q : QuerySchema) (tp : ResultType) (identifier : String) : Nat :=
  if tp = ResultType.GlobalEvent then
    (q.EventSchemas.filter (fun e => e.OutputName == identifier)).length
  else
    (q.ContractSchemas.filter (fun c => addressString c.Address == identifier)).length

/-- A transform body that decodes to a fixed variable map. -/
def constBody (mv : VarMap) : HclBody VarMap := fun _ => Except.ok mv

/-- A body whose decoding fails with a fixed diagnostic. -/
def failBody {α : Type} (e : String) : HclBody α := fun _ => Except.error e

/-- A save block decoding to the empty map. -/
def emptySave : Save := { Options := constBody [] }


/-- C1 counterexample data: a first contract without a transform block,
followed by a contract that matches the result identifier and has one. -/
def exC1NoTransform : ContractSchema :=
  { Address_ := "0x01", AbiPath := "erc20.json", Methods := [], Events := [],
    Transforms := none, Abi := none }

def exC1WithTransform : ContractSchema :=
  { Address_ := "0x02", AbiPath := "erc20.json", Methods := [], Events := [],
    Transforms := some { Options := constBody [("x", CtyValue.num 1)] }, Abi := none }

def exC1Query : QuerySchema :=
  { Name := "q1", Chain := "ethereum",
    ContractSchemas := [exC1NoTransform, exC1WithTransform], EventSchemas := [],
    Saves := emptySave, Filters := none,
    StartBlock := 0, EndBlock := 0, BlockInterval := 0, EvalContextRef := 0 }

def exC1Identifier : String := "0x0000000000000000000000000000000000000002"

/-- C7 counterexample data: two contracts with the same address; the first
transform decodes and merges, the second fails to decode. -/
def exC7First : ContractSchema :=
  { Address_ := "0x03", AbiPath := "erc20.json", Methods := [], Events := [],
    Transforms := some { Options := constBody [("a", CtyValue.num 1)] }, Abi := none }

def exC7Second : ContractSchema :=
  { Address_ := "0x03", AbiPath := "erc20.json", Methods := [], Events := [],
    Transforms := some { Options := failBody "boom" }, Abi := none }

def exC7Query : QuerySchema :=
  { Name := "q7", Chain := "ethereum", ContractSchemas := [exC7First, exC7Second],
    EventSchemas := [], Saves := emptySave, Filters := none,
    StartBlock := 0, EndBlock := 0, BlockInterval := 0, EvalContextRef := 0 }

def exC7Identifier : String := "0x0000000000000000000000000000000000000003"

/-- C7 witness data: a single matching contract whose transform fails. -/
def exC7WContract : ContractSchema :=
  { Address_ := "0x04", AbiPath := "erc20.json", Methods := [], Events := [],
    Transforms := some { Options := failBody "bad" }, Abi := none }

def exC7WQuery : QuerySchema :=
  { Name := "q7w", Chain := "ethereum", ContractSchemas := [exC7WContract],
    EventSchemas := [], Saves := emptySave, Filters := none,
    StartBlock := 0, EndBlock := 0, BlockInterval := 0, EvalContextRef := 0 }

def exC7WIdentifier : String := "0x0000000000000000000000000000000000000004"


/-- The contract whose method/event lists actually determine `Validate`'s
flags: the last contract in iteration order (the last contract of the last
query that has any contracts), because the loop overwrites the flags on every
contract. -/
def lastContract (s : DynamicSchema) : Option ContractSchema :=
  ((s.QuerySchemas.map (fun q => q.ContractSchemas)).flatten).getLast?

def lastContractHasMethods (s : DynamicSchema) : Bool :=
  match lastContract s with
  | some c => !c.Methods.isEmpty
  | none => false

def lastContractHasEvents (s : DynamicSchema) : Bool :=
  match lastContract s with
  | some c => !c.Events.isEmpty
  | none => false

/-- C2 counterexample data: a contract with one method followed by a contract
with none, in a realtime schema with no interval set anywhere. -/
def exC2MethodContract : ContractSchema :=
  { Address_ := "0x05", AbiPath := "erc20.json",
    Methods := [{ BlockOffset := 0, Name_ := "balanceOf", Inputs_ := [],
                  Outputs := ["balance"] }],
    Events := [], Transforms := none, Abi := none }

def exC2EmptyContract : ContractSchema :=
  { Address_ := "0x06", AbiPath := "erc20.json", Methods := [], Events := [],
    Transforms := none, Abi := none }

def exC2Query : QuerySchema :=
  { Name := "q2", Chain := "ethereum",
    ContractSchemas := [exC2MethodContract, exC2EmptyContract], EventSchemas := [],
    Saves := emptySave, Filters := none,
    StartBlock := 0, EndBlock := 0, BlockInterval := 0, EvalContextRef := 0 }

def exC2Schema : DynamicSchema :=
  { StartTime := 0, EndTime := 0, TimeInterval := 0, StartBlock := 0, EndBlock := 0,
    BlockInterval := 0, Variables := [], SchemaConfig := failBody "undecoded",
    QuerySchemas := [exC2Query], EvalContextRef := 0, CtxHeap := [emptyEvalContext] }


/-- A body that decodes to a fixed value. -/
def okBody {α : Type} (a : α) : HclBody α := fun _ => Except.ok a

/-- A placeholder schema (used only as a `getD` default below). -/
def emptySchema : DynamicSchema :=
  { StartTime := 0, EndTime := 0, TimeInterval := 0, StartBlock := 0, EndBlock := 0,
    BlockInterval := 0, Variables := [], SchemaConfig := failBody "empty",
    QuerySchemas := [], EvalContextRef := 0, CtxHeap := [] }

/-- C3 witness data: a one-item loop whose template body fails to decode. -/
def exC3Lp : LoopSchema :=
  { Items := [CtyValue.num 1], QuerySchemaBody := failBody "boom3" }

def exC3Top : TopLevelSchema := { Loop := some exC3Lp, Queries := [] }

def exC3Fields : SchemaFileFields :=
  { StartTime := 0, EndTime := 0, TimeInterval := 0, StartBlock := 0, EndBlock := 0,
    BlockInterval := 0, Variables := [("g", CtyValue.num 5)],
    SchemaConfig := okBody exC3Top }

def exC3File : HclBody SchemaFileFields := okBody exC3Fields

def exC3AbiFiles : String → Option Bool := fun _ => some true

/-- C4 data: a loop of one item whose template decodes to one query (with a
deliberately nonzero context reference, to show the loader overwrites it). -/
def exC4LoopQuery : QuerySchema :=
  { Name := "loopq", Chain := "ethereum", ContractSchemas := [], EventSchemas := [],
    Saves := emptySave, Filters := none, StartBlock := 0, EndBlock := 0,
    BlockInterval := 0, EvalContextRef := 99 }

def exC4Lp : LoopSchema :=
  { Items := [CtyValue.str "token"], QuerySchemaBody := okBody [exC4LoopQuery] }

def exC4Top : TopLevelSchema := { Loop := some exC4Lp, Queries := [] }

def exC4Fields : SchemaFileFields :=
  { StartTime := 0, EndTime := 0, TimeInterval := 0, StartBlock := 0, EndBlock := 0,
    BlockInterval := 0, Variables := [("g", CtyValue.num 5)],
    SchemaConfig := okBody exC4Top }

def exC4File : HclBody SchemaFileFields := okBody exC4Fields

def exC4AbiFiles : String → Option Bool := fun _ => some true

/-- The schema loaded from the C4 data. -/
def exC4Loaded : DynamicSchema :=
  ((NewSchema 1000 exC4File exC4AbiFiles).toOption).getD emptySchema


instance {ε α : Type} [DecidableEq ε] [DecidableEq α] : DecidableEq (Except ε α)
  | Except.error e, Except.error e' =>
    if h : e = e' then isTrue (by rw [h]) else isFalse (by simp [h])
  | Except.error _, Except.ok _ => isFalse (by simp)
  | Except.ok _, Except.error _ => isFalse (by simp)
  | Except.ok a, Except.ok b =>
    if h : a = b then isTrue (by rw [h]) else isFalse (by simp [h])

/-- A trivial capability provider for the concrete examples. -/
def exProvider : ChainFunctionProvider :=
  { Balance := fun _ _ _ => 0, TokenBalance := fun _ _ _ _ => 0 }

/-- C9 data: a schema with one query, and a result owned by a different,
unknown query name. -/
def exC9Query : QuerySchema :=
  { Name := "alpha", Chain := "ethereum", ContractSchemas := [], EventSchemas := [],
    Saves := { Options := okBody [("v", CtyValue.num 7)] },
    Filters := some (okBody [true]),
    StartBlock := 0, EndBlock := 0, BlockInterval := 0, EvalContextRef := 0 }

def exC9Schema : DynamicSchema :=
  { StartTime := 0, EndTime := 0, TimeInterval := 0, StartBlock := 0, EndBlock := 0,
    BlockInterval := 0, Variables := [], SchemaConfig := failBody "undecoded",
    QuerySchemas := [exC9Query], EvalContextRef := 0, CtxHeap := [emptyEvalContext] }

def exC9Res : CallResult :=
  { QueryName := "beta", Type_ := ResultType.Method, Identifier := "", ContractAddress := 1,
    BlockNumber := 10, Timestamp := 99, BlockHash := "0xbh", Chain := "ethereum",
    TxHash := "0xth", EventName := "", TxIndex := 0, Inputs := [], Outputs := [] }


def allAbisOk : String → Option Bool := fun _ => some true

/-- C8 data: two directly declared queries loaded by `NewSchema` (which makes
them share the schema's context), and a result owned by the first. -/
def exC8Q1 : QuerySchema :=
  { Name := "q8a", Chain := "ethereum", ContractSchemas := [], EventSchemas := [],
    Saves := { Options := okBody [("o", CtyValue.num 1)] }, Filters := none,
    StartBlock := 0, EndBlock := 0, BlockInterval := 0, EvalContextRef := 0 }

def exC8Q2 : QuerySchema :=
  { Name := "q8b", Chain := "ethereum", ContractSchemas := [], EventSchemas := [],
    Saves := emptySave, Filters := none,
    StartBlock := 0, EndBlock := 0, BlockInterval := 0, EvalContextRef := 0 }

def exC8Top : TopLevelSchema := { Loop := none, Queries := [exC8Q1, exC8Q2] }

def exC8Fields : SchemaFileFields :=
  { StartTime := 0, EndTime := 0, TimeInterval := 0, StartBlock := 0, EndBlock := 0,
    BlockInterval := 0, Variables := [], SchemaConfig := okBody exC8Top }

def exC8File : HclBody SchemaFileFields := okBody exC8Fields

def exC8Schema : DynamicSchema :=
  ((NewSchema 500 exC8File allAbisOk).toOption).getD emptySchema

def exC8Res : CallResult :=
  { QueryName := "q8a", Type_ := ResultType.Method, Identifier := "", ContractAddress := 9,
    BlockNumber := 100, Timestamp := 1700, BlockHash := "0xbh", Chain := "ethereum",
    TxHash := "0xth", EventName := "", TxIndex := 0, Inputs := [], Outputs := [] }

/-- C8 witness data: two queries whose context references are distinct heap
slots. -/
def exC8WQ1 : QuerySchema :=
  { Name := "w1", Chain := "ethereum", ContractSchemas := [], EventSchemas := [],
    Saves := { Options := okBody [("o", CtyValue.num 1)] }, Filters := none,
    StartBlock := 0, EndBlock := 0, BlockInterval := 0, EvalContextRef := 0 }

def exC8WQ2 : QuerySchema :=
  { Name := "w2", Chain := "ethereum", ContractSchemas := [], EventSchemas := [],
    Saves := emptySave, Filters := none,
    StartBlock := 0, EndBlock := 0, BlockInterval := 0, EvalContextRef := 1 }

def exC8WSchema : DynamicSchema :=
  { StartTime := 0, EndTime := 0, TimeInterval := 0, StartBlock := 0, EndBlock := 0,
    BlockInterval := 0, Variables := [], SchemaConfig := failBody "undecoded",
    QuerySchemas := [exC8WQ1, exC8WQ2], EvalContextRef := 0,
    CtxHeap := [emptyEvalContext, emptyEvalContext] }

def exC8WRes : CallResult :=
  { QueryName := "w1", Type_ := ResultType.Method, Identifier := "", ContractAddress := 9,
    BlockNumber := 100, Timestamp := 1700, BlockHash := "0xbh", Chain := "ethereum",
    TxHash := "0xth", EventName := "", TxIndex := 0, Inputs := [], Outputs := [] }


/-- C5 witness data: a query with Filter `[true, false]` and a Save block
that would produce `v = 7`. -/
def exC5Query : QuerySchema :=
  { Name := "q5", Chain := "ethereum", ContractSchemas := [], EventSchemas := [],
    Saves := { Options := okBody [("v", CtyValue.num 7)] },
    Filters := some (okBody [true, false]),
    StartBlock := 0, EndBlock := 0, BlockInterval := 0, EvalContextRef := 0 }

def exC5Schema : DynamicSchema :=
  { StartTime := 0, EndTime := 0, TimeInterval := 0, StartBlock := 0, EndBlock := 0,
    BlockInterval := 0, Variables := [], SchemaConfig := failBody "undecoded",
    QuerySchemas := [exC5Query], EvalContextRef := 0, CtxHeap := [emptyEvalContext] }

def exC5Res : CallResult :=
  { QueryName := "q5", Type_ := ResultType.Method, Identifier := "", ContractAddress := 4,
    BlockNumber := 50, Timestamp := 1600, BlockHash := "0xbh", Chain := "ethereum",
    TxHash := "0xth", EventName := "", TxIndex := 0, Inputs := [], Outputs := [] }

/-- The context of the C5 query after the result-variable and chain-function
merges (the query has no transforms, so it is also the post-transform
context). -/
def exC5Ctx2 : EvalContext :=
  resultContext exProvider exC5Res (ctxGet exC5Schema.CtxHeap 0)


/-- C10 witness data: a single matching query. -/
def exC10Query : QuerySchema :=
  { Name := "q10", Chain := "ethereum", ContractSchemas := [], EventSchemas := [],
    Saves := emptySave, Filters := none,
    StartBlock := 0, EndBlock := 0, BlockInterval := 0, EvalContextRef := 0 }

def exC10Schema : DynamicSchema :=
  { StartTime := 0, EndTime := 0, TimeInterval := 0, StartBlock := 0, EndBlock := 0,
    BlockInterval := 0, Variables := [], SchemaConfig := failBody "undecoded",
    QuerySchemas := [exC10Query], EvalContextRef := 0, CtxHeap := [emptyEvalContext] }

def exC10Res : CallResult :=
  { QueryName := "q10", Type_ := ResultType.ContractEvent, Identifier := "",
    ContractAddress := 6, BlockNumber := 77, Timestamp := 1800, BlockHash := "0xbh",
    Chain := "ethereum", TxHash := "0xth", EventName := "Transfer", TxIndex := 4,
    Inputs := [], Outputs := [] }


/-- The variable names `GenerateContextVars` assigns besides the raw
input/output names. -/
def reservedVarNames : List String :=
  ["contract_address", "blocknumber", "timestamp", "block_hash", "chain",
   "tx_hash", "event_name", "tx_index"]

/-- Whether an optional variable holds a numeric value. -/
def isNumVar : Option CtyValue → Bool
  | some (CtyValue.num _) => true
  | _ => false

/-- C6 counterexample data: a method result with an address-valued raw
input. -/
def exC6Res : CallResult :=
  { QueryName := "q6", Type_ := ResultType.Method, Identifier := "", ContractAddress := 1,
    BlockNumber := 5, Timestamp := 9, BlockHash := "0xb", Chain := "eth", TxHash := "0xt",
    EventName := "", TxIndex := 0, Inputs := [("spender", GoValue.addr 2)],
    Outputs := [] }

/-- C6 witness data: the spec's test vector — a method result with numeric
input `amount = 42` and an address-valued output `owner`. -/
def exC6WRes : CallResult :=
  { QueryName := "q6w", Type_ := ResultType.Method, Identifier := "",
    ContractAddress := 3, BlockNumber := 7, Timestamp := 11, BlockHash := "0xbh",
    Chain := "eth", TxHash := "0xth", EventName := "ev", TxIndex := 2,
    Inputs := [("amount", GoValue.num 42)], Outputs := [("owner", GoValue.addr 18)] }

/-! ### Helper lemmas about the map model -/

theorem alookup_upsert_self {α : Type} (m : List (String × α)) (k : String) (v : α) :
    alookup (upsert m k v) k = some v := by
  induction m with
  | nil => simp [upsert, alookup]
  | cons hd tl ih =>
    obtain ⟨k', v'⟩ := hd
    by_cases h : k' = k
    · simp [upsert, h, alookup]
    · simp [upsert, h, alookup, ih]

theorem alookup_upsert_of_ne {α : Type} (m : List (String × α)) (k k' : String) (v : α)
    (h : k' ≠ k) : alookup (upsert m k v) k' = alookup m k' := by
  have h' : k ≠ k' := Ne.symm h
  induction m with
  | nil => simp [upsert, alookup, h']
  | cons hd tl ih =>
    obtain ⟨k₀, v₀⟩ := hd
    by_cases h₀ : k₀ = k
    · subst h₀
      simp [upsert, alookup, h']
    · simp only [upsert, if_neg h₀, alookup]
      by_cases h₁ : k₀ = k'
      · simp [h₁]
      · simp [h₁, ih]

theorem isSome_alookup_upsert {α : Type} (m : List (String × α)) (k k' : String) (v : α)
    (h : (alookup m k').isSome) : (alookup (upsert m k v) k').isSome := by
  by_cases hk : k' = k
  · subst hk; simp [alookup_upsert_self]
  · rwa [alookup_upsert_of_ne m k k' v hk]

theorem alookup_upsertAll_of_not_mem {α : Type} (entries m : List (String × α))
    (k : String) (h : k ∉ entries.map Prod.fst) :
    alookup (upsertAll m entries) k = alookup m k := by
  induction entries generalizing m with
  | nil => simp [upsertAll]
  | cons hd tl ih =>
    obtain ⟨k₀, v₀⟩ := hd
    simp only [List.map, List.mem_cons] at h
    push_neg at h
    have h₀ : k ≠ k₀ := h.1
    have htl : k ∉ tl.map Prod.fst := h.2
    simp only [upsertAll, List.foldl_cons]
    have hstep := ih (upsert m k₀ v₀) htl
    simp only [upsertAll] at hstep
    rw [hstep, alookup_upsert_of_ne m k₀ k v₀ h₀]

theorem isSome_alookup_upsertAll {α : Type} (entries m : List (String × α)) (k : String)
    (h : (alookup m k).isSome) : (alookup (upsertAll m entries) k).isSome := by
  induction entries generalizing m with
  | nil => simpa [upsertAll] using h
  | cons hd tl ih =>
    simp only [upsertAll, List.foldl_cons]
    have hstep := ih (upsert m hd.1 hd.2) (isSome_alookup_upsert m hd.1 k hd.2 h)
    simpa [upsertAll] using hstep

theorem isSome_alookup_upsertAll_of_mem_keys {α : Type} (entries m : List (String × α))
    (k : String) (h : k ∈ entries.map Prod.fst) :
    (alookup (upsertAll m entries) k).isSome := by
  induction entries generalizing m with
  | nil => simp at h
  | cons hd tl ih =>
    simp only [List.map, List.mem_cons] at h
    simp only [upsertAll, List.foldl_cons]
    rcases h with h | h
    · subst h
      have hself : (alookup (upsert m hd.1 hd.2) hd.1).isSome := by
        simp [alookup_upsert_self]
      have hstep := isSome_alookup_upsertAll tl (upsert m hd.1 hd.2) hd.1 hself
      simpa [upsertAll] using hstep
    · have hstep := ih (upsert m hd.1 hd.2) h
      simpa [upsertAll] using hstep

theorem alookup_upsertAll_of_mem_nodup {α : Type} (entries m : List (String × α))
    (k : String) (v : α) (hnd : (entries.map Prod.fst).Nodup) (h : (k, v) ∈ entries) :
    alookup (upsertAll m entries) k = some v := by
  induction entries generalizing m with
  | nil => simp at h
  | cons hd tl ih =>
    simp only [List.map, List.nodup_cons] at hnd
    simp only [List.mem_cons] at h
    simp only [upsertAll, List.foldl_cons]
    rcases h with h | h
    · subst h
      have hk : k ∉ tl.map Prod.fst := hnd.1
      have hstep := alookup_upsertAll_of_not_mem tl (upsert m k v) k hk
      simp only [upsertAll] at hstep
      simp only [hstep, alookup_upsert_self]
    · have hstep := ih (upsert m hd.1 hd.2) hnd.2 h
      simpa [upsertAll] using hstep

theorem evalTransformsContracts_eq_scan (cs : List ContractSchema) (identifier : String)
    (ctx : EvalContext) :
    evalTransformsContracts cs identifier ctx =
      runTransformList (scannedContractTransforms cs identifier) ctx := by
  induction cs generalizing ctx with
  | nil => rfl
  | cons c rest ih =>
    cases ht : c.Transforms with
    | none =>
      simp [evalTransformsContracts, ht, scannedContractTransforms,
        List.takeWhile_cons, runTransformList]
    | some t =>
      by_cases hm : addressString c.Address = identifier
      · have hscan : scannedContractTransforms (c :: rest) identifier
            = t.Options :: scannedContractTransforms rest identifier := by
          simp [scannedContractTransforms, List.takeWhile_cons, ht, hm, List.filter_cons]
        simp only [evalTransformsContracts, ht, if_pos hm, hscan]
        cases hb : t.Options ctx with
        | error e => simp [runTransformList, hb]
        | ok mv => simp [runTransformList, hb, ih]
      · have hscan : scannedContractTransforms (c :: rest) identifier
            = scannedContractTransforms rest identifier := by
          simp [scannedContractTransforms, List.takeWhile_cons, ht, hm, List.filter_cons]
        simp only [evalTransformsContracts, ht, if_neg hm, hscan, ih]

theorem evalTransformsEvents_eq_scan (es : List EventSchema) (identifier : String)
    (ctx : EvalContext) :
    evalTransformsEvents es identifier ctx =
      runTransformList (scannedEventTransforms es identifier) ctx := by
  induction es generalizing ctx with
  | nil => rfl
  | cons e rest ih =>
    cases ht : e.Transforms with
    | none =>
      simp [evalTransformsEvents, ht, scannedEventTransforms,
        List.takeWhile_cons, runTransformList]
    | some t =>
      by_cases hm : e.OutputName = identifier
      · have hscan : scannedEventTransforms (e :: rest) identifier
            = t.Options :: scannedEventTransforms rest identifier := by
          simp [scannedEventTransforms, List.takeWhile_cons, ht, hm, List.filter_cons]
        simp only [evalTransformsEvents, ht, if_pos hm, hscan]
        cases hb : t.Options ctx with
        | error err => simp [runTransformList, hb]
        | ok mv => simp [runTransformList, hb, ih]
      · have hscan : scannedEventTransforms (e :: rest) identifier
            = scannedEventTransforms rest identifier := by
          simp [scannedEventTransforms, List.takeWhile_cons, ht, hm, List.filter_cons]
        simp only [evalTransformsEvents, ht, if_neg hm, hscan, ih]

theorem evalTransforms_eq_scan (q : QuerySchema) (tp : ResultType) (identifier : String)
    (ctx : EvalContext) :
    EvalTransforms q tp identifier ctx =
      runTransformList (scannedTransforms q tp identifier) ctx := by
  unfold EvalTransforms scannedTransforms
  by_cases h : tp = ResultType.GlobalEvent
  · simp [h, evalTransformsEvents_eq_scan]
  · simp [h, evalTransformsContracts_eq_scan]

theorem runTransformList_error (bs : List (HclBody VarMap)) (ctx ctx' : EvalContext)
    (e : String) (h : runTransformList bs ctx = (ctx', some e)) :
    ∃ k b, bs[k]? = some b ∧ runTransformList (bs.take k) ctx = (ctx', none)
      ∧ b ctx' = Except.error e := by
  induction bs generalizing ctx with
  | nil => simp [runTransformList] at h
  | cons b rest ih =>
    cases hb : b ctx with
    | error e' =>
      simp only [runTransformList, hb] at h
      obtain ⟨h1, h2⟩ := Prod.mk.injEq .. ▸ h
      obtain rfl : ctx = ctx' := by exact h1
      obtain rfl : e' = e := by simpa using h2
      exact ⟨0, b, by simp, by simp [runTransformList], hb⟩
    | ok mv =>
      simp only [runTransformList, hb] at h
      obtain ⟨k, b', hk, htake, hb'⟩ := ih (mergeVariables ctx mv) h
      exact ⟨k + 1, b', by simpa using hk,
        by simp [List.take_succ_cons, runTransformList, hb, htake], hb'⟩

theorem scannedContractTransforms_length_le (cs : List ContractSchema)
    (identifier : String) :
    (scannedContractTransforms cs identifier).length ≤
      (cs.filter (fun c => addressString c.Address == identifier)).length := by
  unfold scannedContractTransforms
  refine le_trans (List.length_filterMap_le _ _) ?_
  exact List.Sublist.length_le (List.Sublist.filter _ (List.takeWhile_sublist _))

theorem scannedEventTransforms_length_le (es : List EventSchema) (identifier : String) :
    (scannedEventTransforms es identifier).length ≤
      (es.filter (fun e => e.OutputName == identifier)).length := by
  unfold scannedEventTransforms
  refine le_trans (List.length_filterMap_le _ _) ?_
  exact List.Sublist.length_le (List.Sublist.filter _ (List.takeWhile_sublist _))

theorem scannedTransforms_length_le_matchCount (q : QuerySchema) (tp : ResultType)
    (identifier : String) :
    (scannedTransforms q tp identifier).length ≤ matchingNodeCount q tp identifier := by
  unfold scannedTransforms matchingNodeCount
  by_cases h : tp = ResultType.GlobalEvent
  · simpa [h] using scannedEventTransforms_length_le q.EventSchemas identifier
  · simpa [h] using scannedContractTransforms_length_le q.ContractSchemas identifier

/-! ### Claim C1 -/

/-- C1 (counterexample): in a query whose first contract declares no
Transform and whose second contract both matches the result's identifier and
declares a Transform producing `x = 1`, `EvalTransforms` returns no error and
does not merge `x`: the matching node's Transform is not run when a
non-matching node without a Transform precedes it, contrary to the claim's
"regardless of whether other, non-matching nodes in the query have a
Transform or not". -/
theorem C1_counterexample :
    EvalTransforms exC1Query ResultType.ContractEvent exC1Identifier emptyEvalContext
      = (emptyEvalContext, none)
    ∧ alookup (EvalTransforms exC1Query ResultType.ContractEvent exC1Identifier
        emptyEvalContext).1.Variables "x" = none
    ∧ addressString exC1WithTransform.Address = exC1Identifier
    ∧ exC1WithTransform.Transforms.isSome = true
    ∧ exC1NoTransform.Transforms.isNone = true
    ∧ addressString exC1NoTransform.Address ≠ exC1Identifier := by
  refine ⟨by decide, by decide, by decide, by decide, by decide, by decide⟩

/-- C1 (amended): for every query, result kind and identifier,
`EvalTransforms` runs exactly the Transforms of the matching nodes (contracts
whose canonical address string equals the identifier, or global events whose
output-identifier equals it) that precede the first node lacking a Transform
block: the scan returns silently, with no error, at the first node without a
Transform — in particular a matching node placed after such a node is skipped
— and each Transform that is run is decoded against the current context and
merged entry by entry into the variable table, a decode failure aborting with
that error. -/
theorem C1_amended (q : QuerySchema) (tp : ResultType) (identifier : String)
    (ctx : EvalContext) :
    EvalTransforms q tp identifier ctx =
      runTransformList (scannedTransforms q tp identifier) ctx :=
  evalTransforms_eq_scan q tp identifier ctx

/-! ### Claim C7 -/

/-- C7 (counterexample): with two contracts matching the same identifier, the
first Transform merges `a = 1` and the second fails to decode;
`EvalTransforms` returns the decode error yet the variable table now contains
`a`, so a failed Transform decode does not always leave the variable table
exactly as it was before the Transform step. -/
theorem C7_counterexample :
    (EvalTransforms exC7Query ResultType.Method exC7Identifier emptyEvalContext).2
      = some "boom"
    ∧ alookup (EvalTransforms exC7Query ResultType.Method exC7Identifier
        emptyEvalContext).1.Variables "a" = some (CtyValue.num 1)
    ∧ alookup emptyEvalContext.Variables "a" = none := by
  refine ⟨by decide, by decide, by decide⟩

/-- C7 (amended): when a Transform decode fails, `EvalTransforms` returns the
decode error and none of the failing Transform's entries are merged — the
resulting context is exactly the merge of the earlier successfully decoded
matching Transforms, and the failing body is the next scanned one — so when
at most one node matches the identifier, the variable table is left exactly
as it was before the Transform step. -/
theorem C7_amended (q : QuerySchema) (tp : ResultType) (identifier : String)
    (ctx ctx' : EvalContext) (e : String)
    (h : EvalTransforms q tp identifier ctx = (ctx', some e)) :
    (∃ k b, (scannedTransforms q tp identifier)[k]? = some b
      ∧ runTransformList ((scannedTransforms q tp identifier).take k) ctx = (ctx', none)
      ∧ b ctx' = Except.error e)
    ∧ (matchingNodeCount q tp identifier ≤ 1 → ctx' = ctx) := by
  rw [evalTransforms_eq_scan] at h
  refine ⟨runTransformList_error _ _ _ _ h, fun hc => ?_⟩
  obtain ⟨k, b, hk, htake, hb⟩ := runTransformList_error _ _ _ _ h
  have hlen : k < (scannedTransforms q tp identifier).length := by
    by_contra hge
    rw [List.getElem?_eq_none (Nat.le_of_not_lt hge)] at hk
    exact Option.noConfusion hk
  have hle := scannedTransforms_length_le_matchCount q tp identifier
  have hk0 : k = 0 := Nat.lt_one_iff.mp (lt_of_lt_of_le hlen (le_trans hle hc))
  subst hk0
  have hxx : ctx = ctx' := by simpa [runTransformList] using htake
  exact hxx.symm

/-- C7 (witness): applying the amended theorem at a concrete query with a
single matching contract whose transform fails shows the context is returned
unchanged. -/
theorem C7_witness :
    (EvalTransforms exC7WQuery ResultType.Method exC7WIdentifier emptyEvalContext).1
      = emptyEvalContext :=
  (C7_amended exC7WQuery ResultType.Method exC7WIdentifier emptyEvalContext
      (EvalTransforms exC7WQuery ResultType.Method exC7WIdentifier emptyEvalContext).1
      "bad" (by decide)).2 (by decide)

theorem foldl_overwrite {α β : Type} (f : α → β) (l : List α) (a : β) :
    l.foldl (fun _ c => f c) a = (l.getLast?).elim a f := by
  induction l generalizing a with
  | nil => rfl
  | cons c rest ih =>
    rw [List.foldl_cons, ih]
    cases rest with
    | nil => simp
    | cons d tl =>
      rw [List.getLast?_cons_cons]
      have hsome : ((d :: tl).getLast?).isSome = true := List.getLast?_isSome.mpr (by simp)
      obtain ⟨y, hy⟩ := Option.isSome_iff_exists.mp hsome
      simp [hy]

theorem validateFlagsAux (queries : List QuerySchema) (a : Bool × Bool) :
    queries.foldl (fun fl q => q.ContractSchemas.foldl
        (fun _ c => (!c.Methods.isEmpty, !c.Events.isEmpty)) fl) a
      = (((queries.map (fun q => q.ContractSchemas)).flatten).getLast?).elim a
        (fun c => (!c.Methods.isEmpty, !c.Events.isEmpty)) := by
  induction queries generalizing a with
  | nil => rfl
  | cons q rest ih =>
    rw [List.foldl_cons, ih, List.map_cons, List.flatten_cons, List.getLast?_append,
      foldl_overwrite]
    cases hrest : ((rest.map (fun q => q.ContractSchemas)).flatten).getLast? with
    | none => simp [Option.or]
    | some c => simp [Option.or]

theorem validateFlags_eq (s : DynamicSchema) :
    validateFlags s = (lastContractHasMethods s, lastContractHasEvents s) := by
  unfold validateFlags lastContractHasMethods lastContractHasEvents lastContract
  rw [validateFlagsAux]
  cases ((s.QuerySchemas.map (fun q => q.ContractSchemas)).flatten).getLast? <;> simp

/-! ### Claim C2 -/

/-- C2 (counterexample): in a realtime schema with no interval set at either
level, whose single query declares a contract with one method followed by a
contract with none, some query has at least one Method, yet `Validate`
returns nil instead of `NoIntervalRealtime`: the flag computation keeps only
the last contract iterated. -/
theorem C2_counterexample :
    Validate exC2Schema { Realtime := true } = none
    ∧ exC2MethodContract.Methods ≠ []
    ∧ exC2MethodContract ∈ exC2Query.ContractSchemas
    ∧ exC2Query ∈ exC2Schema.QuerySchemas
    ∧ exC2Schema.BlockInterval = 0 ∧ exC2Schema.TimeInterval = 0
    ∧ exC2Query.BlockInterval = 0 := by
  refine ⟨by decide, by decide, List.mem_cons_self _ _, ?_, by decide, by decide, by decide⟩
  show exC2Query ∈ [exC2Query]
  exact List.mem_cons_self _ _

/-- C2 (amended): `Validate` derives its method/event flags from the last
contract in iteration order only (the last contract of the last query having
contracts), counts only contract-nested events, and consults only
schema-level intervals and windows: it returns `NoIntervalRealtime` exactly
when that last contract has a method, realtime mode is on, and both
schema-level intervals are zero; `NoIntervalHistorical` exactly when that
last contract has a method, realtime is off, a complete schema-level
historical window is set and both schema-level intervals are zero;
`IntervalDefinedForHistoricalEvents` exactly when that last contract has an
event, realtime is off is, and a schema-level interval is nonzero; and nil
exactly when none of these hold. -/
theorem C2_amended (s : DynamicSchema) (opts : ApolloOpts) :
    (Validate s opts = some SchemaError.noIntervalRealtime ↔
      (lastContractHasMethods s = true ∧ opts.Realtime = true
        ∧ s.BlockInterval = 0 ∧ s.TimeInterval = 0))
    ∧ (Validate s opts = some SchemaError.noIntervalHistorical ↔
      (lastContractHasMethods s = true ∧ opts.Realtime = false
        ∧ ((s.StartBlock ≠ 0 ∧ s.EndBlock ≠ 0) ∨ (s.StartTime ≠ 0 ∧ s.EndTime ≠ 0))
        ∧ s.BlockInterval = 0 ∧ s.TimeInterval = 0))
    ∧ (Validate s opts = some SchemaError.intervalDefinedForHistoricalEvents ↔
      (lastContractHasEvents s = true ∧ opts.Realtime = false
        ∧ (s.BlockInterval ≠ 0 ∨ s.TimeInterval ≠ 0)))
    ∧ (Validate s opts = none ↔
      (¬(lastContractHasMethods s = true ∧ opts.Realtime = true
          ∧ s.BlockInterval = 0 ∧ s.TimeInterval = 0)
        ∧ ¬(lastContractHasMethods s = true ∧ opts.Realtime = false
          ∧ ((s.StartBlock ≠ 0 ∧ s.EndBlock ≠ 0) ∨ (s.StartTime ≠ 0 ∧ s.EndTime ≠ 0))
          ∧ s.BlockInterval = 0 ∧ s.TimeInterval = 0)
        ∧ ¬(lastContractHasEvents s = true ∧ opts.Realtime = false
          ∧ (s.BlockInterval ≠ 0 ∨ s.TimeInterval ≠ 0)))) := by
  have hfl := validateFlags_eq s
  simp only [Validate, hfl]
  rcases hr : opts.Realtime with _ | _ <;>
    simp only [hr] <;>
    split_ifs with h1 h2 h3 <;>
    simp_all

theorem mapExcept_ok_length {α β : Type} (f : α → Except String β) (l : List α)
    (bs : List β) (h : mapExcept f l = Except.ok bs) : bs.length = l.length := by
  induction l generalizing bs with
  | nil =>
    simp only [mapExcept] at h
    cases h
    rfl
  | cons a rest ih =>
    simp only [mapExcept] at h
    cases hf : f a with
    | error e => rw [hf] at h; exact absurd h (by simp)
    | ok b =>
      rw [hf] at h
      cases hr : mapExcept f rest with
      | error e => rw [hr] at h; exact absurd h (by simp)
      | ok bs' =>
        rw [hr] at h
        cases h
        simp [ih bs' hr]

theorem mapExcept_mem {α β : Type} (f : α → Except String β) (l : List α)
    (bs : List β) (h : mapExcept f l = Except.ok bs) :
    ∀ b ∈ bs, ∃ a ∈ l, f a = Except.ok b := by
  induction l generalizing bs with
  | nil =>
    simp only [mapExcept] at h
    cases h
    intro b hb
    simp at hb
  | cons a rest ih =>
    simp only [mapExcept] at h
    cases hf : f a with
    | error e => rw [hf] at h; exact absurd h (by simp)
    | ok b0 =>
      rw [hf] at h
      cases hr : mapExcept f rest with
      | error e => rw [hr] at h; exact absurd h (by simp)
      | ok bs' =>
        rw [hr] at h
        cases h
        intro b hb
        rcases List.mem_cons.mp hb with hb | hb
        · exact ⟨a, List.mem_cons_self _ _, hb ▸ hf⟩
        · obtain ⟨a', ha', hfa'⟩ := ih bs' hr b hb
          exact ⟨a', List.mem_cons_of_mem _ ha', hfa'⟩

theorem loadQueryAbis_ref (abiFiles : String → Option Bool) (q q' : QuerySchema)
    (h : loadQueryAbis abiFiles q = Except.ok q') :
    q'.EvalContextRef = q.EvalContextRef := by
  unfold loadQueryAbis at h
  cases he : mapExcept (loadEventAbi abiFiles) q.EventSchemas with
  | error e => rw [he] at h; exact absurd h (by simp)
  | ok es =>
    rw [he] at h
    cases hc : mapExcept (loadContractAbi abiFiles) q.ContractSchemas with
    | error e => rw [hc] at h; exact absurd h (by simp)
    | ok cs =>
      rw [hc] at h
      cases h
      rfl

/-! ### Claim C3 -/

/-- C3 (confirmed): in a load whose top level decodes to a loop construct,
the expansion decodes the query template once per item — `expandLoop` is
exactly one decode of the template body per item, each against the context
consisting of only the builtin function table and the single variable `item`
bound to that item (neither the schema's variables nor `now` appear, and no
context value is shared between iterations); a decode failure in any
iteration aborts the whole load with that error; and on success exactly one
query list per item is produced. -/
theorem C3_loop_expansion (now : Int) (file : HclBody SchemaFileFields)
    (abiFiles : String → Option Bool) (fields : SchemaFileFields)
    (top : TopLevelSchema) (lp : LoopSchema)
    (hf : file (InitialContext now) = Except.ok fields)
    (ht : fields.SchemaConfig (enrichedContext now fields) = Except.ok top)
    (hl : top.Loop = some lp) :
    expandLoop now lp = mapExcept (fun item => lp.QuerySchemaBody
        { Variables := [("item", item)], Functions := Functions }) lp.Items
    ∧ (∀ e, expandLoop now lp = Except.error e →
        NewSchema now file abiFiles = Except.error e)
    ∧ (∀ qss, expandLoop now lp = Except.ok qss → qss.length = lp.Items.length) := by
  refine ⟨rfl, ?_, ?_⟩
  · intro e he
    simp only [NewSchema, hf, ht, hl, he]
  · intro qss h
    exact mapExcept_ok_length _ _ _ h

/-- C3 (witness): the theorem applied to a concrete one-item loop whose
template decode fails shows the whole load failing with that error. -/
theorem C3_witness : NewSchema 7 exC3File exC3AbiFiles = Except.error "boom3" :=
  (C3_loop_expansion 7 exC3File exC3AbiFiles exC3Fields exC3Top exC3Lp rfl rfl rfl).2.1
    "boom3" rfl

/-! ### Claim C4 -/

/-- C4 (counterexample): loading a schema with variable `g = 5` and a loop of
one item expanding to one query yields a schema whose single (loop-expanded)
query has the schema's enriched context as its live Expression Context: its
variable table contains `now` and the global `g` and does not contain `item`
— not the loop-item-scoped context the claim requires. -/
theorem C4_counterexample :
    (NewSchema 1000 exC4File exC4AbiFiles).toOption.map (fun s =>
        (s.QuerySchemas.map (fun q => q.Name),
         s.QuerySchemas.map (fun q =>
           (alookup (ctxGet s.CtxHeap q.EvalContextRef).Variables "item",
            alookup (ctxGet s.CtxHeap q.EvalContextRef).Variables "now",
            alookup (ctxGet s.CtxHeap q.EvalContextRef).Variables "g"))))
      = some (["loopq"], [(none, some (CtyValue.num 1000), some (CtyValue.num 5))]) := by
  decide

/-- C4 (amended): after a successful load, every query — directly declared or
loop-expanded — has the schema's single shared enriched context attached as
its live Expression Context: the context heap holds exactly the enriched
context, and every query's context reference (like the schema's own) points
at it; the loop-item-scoped contexts are used only while decoding the
template and are discarded. -/
theorem C4_amended (now : Int) (file : HclBody SchemaFileFields)
    (abiFiles : String → Option Bool) (s : DynamicSchema)
    (h : NewSchema now file abiFiles = Except.ok s) :
    s.CtxHeap.length = 1
    ∧ (∀ q ∈ s.QuerySchemas, q.EvalContextRef = 0)
    ∧ s.EvalContextRef = 0
    ∧ (∀ fields, file (InitialContext now) = Except.ok fields →
        s.CtxHeap = [enrichedContext now fields]) := by
  unfold NewSchema at h
  cases hf : file (InitialContext now) with
  | error e => rw [hf] at h; exact absurd h (by simp)
  | ok fields =>
    rw [hf] at h
    simp only [] at h
    cases ht : fields.SchemaConfig (enrichedContext now fields) with
    | error e => rw [ht] at h; exact absurd h (by simp)
    | ok top =>
      rw [ht] at h
      simp only [] at h
      cases hlp : (match top.Loop with
          | none => Except.ok []
          | some lp => expandLoop now lp) with
      | error e => rw [hlp] at h; exact absurd h (by simp)
      | ok qss =>
        rw [hlp] at h
        simp only [] at h
        cases hm : mapExcept (fun q => loadQueryAbis abiFiles { q with EvalContextRef := 0 })
            (top.Queries ++ qss.flatten) with
        | error e => rw [hm] at h; exact absurd h (by simp)
        | ok qs1 =>
          rw [hm] at h
          simp only [] at h
          cases h
          refine ⟨rfl, ?_, rfl, ?_⟩
          · intro q hq
            obtain ⟨q0, _, hq0⟩ := mapExcept_mem _ _ _ hm q hq
            have := loadQueryAbis_ref abiFiles { q0 with EvalContextRef := 0 } q hq0
            simpa using this
          · intro fields' hf'
            cases hf'
            rfl

/-- C4 (witness): the amended theorem applied to the concrete C4 load. -/
theorem C4_witness :
    exC4Loaded.CtxHeap.length = 1 ∧ exC4Loaded.EvalContextRef = 0
      ∧ exC4Loaded.CtxHeap = [enrichedContext 1000 exC4Fields] := by
  have h : NewSchema 1000 exC4File exC4AbiFiles = Except.ok exC4Loaded := rfl
  exact ⟨(C4_amended 1000 exC4File exC4AbiFiles exC4Loaded h).1,
    (C4_amended 1000 exC4File exC4AbiFiles exC4Loaded h).2.2.1,
    (C4_amended 1000 exC4File exC4AbiFiles exC4Loaded h).2.2.2 exC4Fields rfl⟩

theorem ctxGet_set_self (heap : List EvalContext) (i : Nat) (c : EvalContext)
    (h : i < heap.length) : ctxGet (ctxSet heap i c) i = c := by
  unfold ctxGet ctxSet
  rw [List.getD_eq_getElem?_getD, List.getElem?_set_self (by simpa using h)]
  rfl

theorem ctxGet_set_ne (heap : List EvalContext) (i j : Nat) (c : EvalContext)
    (h : j ≠ i) : ctxGet (ctxSet heap i c) j = ctxGet heap j := by
  unfold ctxGet ctxSet
  rw [List.getD_eq_getElem?_getD, List.getD_eq_getElem?_getD,
    List.getElem?_set_ne (fun hh => h hh.symm)]

theorem evalSaveLoop_append_skip (provider : ChainFunctionProvider) (res : CallResult)
    (qs₁ rest : List QuerySchema) (heap : List EvalContext) (outputs : VarMap)
    (h : ∀ q ∈ qs₁, q.Name ≠ res.QueryName) :
    evalSaveLoop provider res (qs₁ ++ rest) heap outputs
      = evalSaveLoop provider res rest heap outputs := by
  induction qs₁ with
  | nil => rfl
  | cons q tl ih =>
    have hq : q.Name ≠ res.QueryName := h q (List.mem_cons_self _ _)
    have htl : ∀ q' ∈ tl, q'.Name ≠ res.QueryName :=
      fun q' hq' => h q' (List.mem_cons_of_mem _ hq')
    simp only [List.cons_append, evalSaveLoop, if_neg hq]
    exact ih htl

theorem evalSaveLoop_skip (provider : ChainFunctionProvider) (res : CallResult)
    (qs : List QuerySchema) (heap : List EvalContext) (outputs : VarMap)
    (h : ∀ q ∈ qs, q.Name ≠ res.QueryName) :
    evalSaveLoop provider res qs heap outputs = (heap, Except.ok outputs) := by
  have := evalSaveLoop_append_skip provider res qs [] heap outputs h
  simpa using this

theorem evalFilterLoop_append_skip (heap : List EvalContext) (queryName : String)
    (qs₁ rest : List QuerySchema) (filters : List Bool)
    (h : ∀ q ∈ qs₁, q.Name ≠ queryName) :
    evalFilterLoop heap queryName (qs₁ ++ rest) filters
      = evalFilterLoop heap queryName rest filters := by
  induction qs₁ with
  | nil => rfl
  | cons q tl ih =>
    have hq : q.Name ≠ queryName := h q (List.mem_cons_self _ _)
    have htl : ∀ q' ∈ tl, q'.Name ≠ queryName :=
      fun q' hq' => h q' (List.mem_cons_of_mem _ hq')
    simp only [List.cons_append, evalFilterLoop, if_neg hq]
    exact ih htl

theorem evalFilterLoop_skip (heap : List EvalContext) (queryName : String)
    (qs : List QuerySchema) (filters : List Bool)
    (h : ∀ q ∈ qs, q.Name ≠ queryName) :
    evalFilterLoop heap queryName qs filters = Except.ok (filters.all (fun b => b)) := by
  have := evalFilterLoop_append_skip heap queryName qs [] filters h
  simpa [evalFilterLoop] using this

/-! ### Claim C9 -/

/-- C9 (counterexample): for a result whose owning query name matches no
query, `EvalSave` leaves the schema untouched and returns no error — but its
output is the freshly allocated empty (non-nil) map `some []`, not the nil
map `none` that the spec's "(no output, no error)" denotes for the
filtered-out case, so the unknown-query outcome is an empty output map, not
"no output". -/
theorem C9_counterexample :
    (EvalSave exC9Schema exProvider exC9Res).2 = Except.ok (some [])
    ∧ (EvalSave exC9Schema exProvider exC9Res).1.CtxHeap = exC9Schema.CtxHeap
    ∧ (Except.ok (some ([] : VarMap)) : Except String (Option VarMap)) ≠ Except.ok none
    ∧ exC9Query.Name ≠ exC9Res.QueryName := by
  refine ⟨by decide, by decide, by decide, by decide⟩

/-- C9 (amended): for every result whose owning query name matches no query
in the schema, `EvalSave` decodes nothing and modifies no context — the
schema is returned unchanged, for arbitrary transform/filter/save bodies —
and it returns no error together with an empty (non-nil) output map. -/
theorem C9_amended (s : DynamicSchema) (provider : ChainFunctionProvider)
    (res : CallResult) (h : ∀ q ∈ s.QuerySchemas, q.Name ≠ res.QueryName) :
    EvalSave s provider res = (s, Except.ok (some [])) := by
  have hr := evalSaveLoop_skip provider res s.QuerySchemas s.CtxHeap [] h
  have hfl := evalFilterLoop_skip s.CtxHeap res.QueryName s.QuerySchemas [] h
  simp only [EvalSave, hr, EvalFilter, hfl, List.all_nil]

/-- C9 (witness): the amended theorem applied to the concrete unknown-query
result. -/
theorem C9_witness :
    EvalSave exC9Schema exProvider exC9Res = (exC9Schema, Except.ok (some [])) :=
  C9_amended exC9Schema exProvider exC9Res
    (by
      intro q hq
      obtain rfl := List.mem_singleton.mp hq
      decide)

theorem evalSaveLoop_frame (provider : ChainFunctionProvider) (res : CallResult)
    (qs : List QuerySchema) (heap : List EvalContext) (outputs : VarMap) (i : Nat)
    (h : ∀ q ∈ qs, q.Name = res.QueryName → q.EvalContextRef ≠ i) :
    ctxGet (evalSaveLoop provider res qs heap outputs).1 i = ctxGet heap i := by
  induction qs generalizing heap outputs with
  | nil => rfl
  | cons q rest ih =>
    have hrest : ∀ q' ∈ rest, q'.Name = res.QueryName → q'.EvalContextRef ≠ i :=
      fun q' hq' => h q' (List.mem_cons_of_mem _ hq')
    by_cases hn : q.Name = res.QueryName
    · have hne : i ≠ q.EvalContextRef := Ne.symm (h q (List.mem_cons_self _ _) hn)
      simp only [evalSaveLoop, if_pos hn]
      cases htr : (EvalTransforms q res.Type_ res.Identifier
          (resultContext provider res (ctxGet heap q.EvalContextRef))).2 with
      | some e =>
        simp only [htr]
        exact ctxGet_set_ne _ _ _ _ hne
      | none =>
        simp only [htr]
        cases hs : q.Saves.Options (EvalTransforms q res.Type_ res.Identifier
            (resultContext provider res (ctxGet heap q.EvalContextRef))).1 with
        | error e =>
          simp only [hs]
          exact ctxGet_set_ne _ _ _ _ hne
        | ok out =>
          simp only [hs]
          rw [ih _ _ hrest]
          exact ctxGet_set_ne _ _ _ _ hne
    · simp only [evalSaveLoop, if_neg hn]
      exact ih _ _ hrest

/-! ### Claim C8 -/

/-- C8 (counterexample): loading two directly declared queries gives both the
same context reference (slot 0); evaluating a result owned by the first
merges `contract_address` and the chain functions into the very context slot
the second query reads, so the second query's context does not stay
unchanged. -/
theorem C8_counterexample :
    exC8Schema.QuerySchemas.map (fun q => (q.Name, q.EvalContextRef))
      = [("q8a", 0), ("q8b", 0)]
    ∧ exC8Q2.Name ≠ exC8Res.QueryName
    ∧ alookup (ctxGet exC8Schema.CtxHeap 0).Variables "contract_address" = none
    ∧ alookup (ctxGet (EvalSave exC8Schema exProvider exC8Res).1.CtxHeap 0).Variables
        "contract_address"
      = some (CtyValue.str "0x0000000000000000000000000000000000000009")
    ∧ alookup (ctxGet (EvalSave exC8Schema exProvider exC8Res).1.CtxHeap 0).Functions
        "balance" = some (CtyFunction.balance "ethereum" 100) := by
  refine ⟨by decide, by decide, by decide, by decide, by decide⟩

/-- C8 (amended): queries produced by one load share a single context object,
so evaluating a result for one query mutates state visible to every query of
the schema; the claimed frame property holds only between context slots:
`EvalSave` writes only the context slots referenced by queries whose name
equals the result's owning query name, and every other slot — in particular
the context of a second query holding a distinct context object — is left
unchanged. -/
theorem C8_amended (s : DynamicSchema) (provider : ChainFunctionProvider)
    (res : CallResult) (i : Nat)
    (h : ∀ q ∈ s.QuerySchemas, q.Name = res.QueryName → q.EvalContextRef ≠ i) :
    ctxGet (EvalSave s provider res).1.CtxHeap i = ctxGet s.CtxHeap i :=
  evalSaveLoop_frame provider res s.QuerySchemas s.CtxHeap [] i h

/-- C8 (witness): with two queries holding distinct context slots, evaluating
a result for the first leaves the second query's context slot unchanged. -/
theorem C8_witness :
    ctxGet (EvalSave exC8WSchema exProvider exC8WRes).1.CtxHeap 1
      = ctxGet exC8WSchema.CtxHeap 1 :=
  C8_amended exC8WSchema exProvider exC8WRes 1
    (by
      intro q hq hname
      rcases List.mem_cons.mp hq with rfl | hq2
      · decide
      · obtain rfl := List.mem_singleton.mp hq2
        exact absurd hname (by decide))

/-! ### Claim C5 -/

/-- C5 (confirmed): for a result whose (uniquely named) query's transforms
and save decode successfully, `EvalSave` decodes the query's Filter — when
one is present — as a list of booleans, against the post-transform context
(the save decode does not change the context), and returns the Go
`(nil, nil)` (here `Except.ok none`) whenever any decoded boolean is false,
discarding the decoded save output; when every boolean is true, and likewise
when the query has no Filter, the decoded save output map is returned with no
error. -/
theorem C5_filter (s : DynamicSchema) (provider : ChainFunctionProvider)
    (res : CallResult) (q : QuerySchema) (qs₁ qs₂ : List QuerySchema)
    (ctx2 : EvalContext) (out : VarMap)
    (hsplit : s.QuerySchemas = qs₁ ++ q :: qs₂)
    (hothers : ∀ q' ∈ qs₁ ++ qs₂, q'.Name ≠ res.QueryName)
    (hname : q.Name = res.QueryName)
    (href : q.EvalContextRef < s.CtxHeap.length)
    (htr : EvalTransforms q res.Type_ res.Identifier
        (resultContext provider res (ctxGet s.CtxHeap q.EvalContextRef)) = (ctx2, none))
    (hsave : q.Saves.Options ctx2 = Except.ok out) :
    (q.Filters = none → EvalSave s provider res
      = ({ s with CtxHeap := ctxSet s.CtxHeap q.EvalContextRef ctx2 },
         Except.ok (some out)))
    ∧ (∀ fb bs, q.Filters = some fb → fb ctx2 = Except.ok bs →
      EvalSave s provider res
        = ({ s with CtxHeap := ctxSet s.CtxHeap q.EvalContextRef ctx2 },
           Except.ok (if bs.all (fun b => b) then some out else none))) := by
  have h1 : ∀ q' ∈ qs₁, q'.Name ≠ res.QueryName :=
    fun q' hq' => hothers q' (List.mem_append_left _ hq')
  have h2 : ∀ q' ∈ qs₂, q'.Name ≠ res.QueryName :=
    fun q' hq' => hothers q' (List.mem_append_right _ hq')
  have hloop : evalSaveLoop provider res s.QuerySchemas s.CtxHeap []
      = (ctxSet s.CtxHeap q.EvalContextRef ctx2, Except.ok out) := by
    rw [hsplit, evalSaveLoop_append_skip provider res qs₁ _ _ _ h1]
    simp only [evalSaveLoop, if_pos hname, htr, hsave]
    exact evalSaveLoop_skip provider res qs₂ _ _ h2
  have hfilterCtx : ctxGet (ctxSet s.CtxHeap q.EvalContextRef ctx2) q.EvalContextRef
      = ctx2 := ctxGet_set_self _ _ _ href
  constructor
  · intro hf
    have hEF : EvalFilter { s with CtxHeap := ctxSet s.CtxHeap q.EvalContextRef ctx2 }
        res.QueryName = Except.ok true := by
      unfold EvalFilter
      simp only [hsplit]
      rw [evalFilterLoop_append_skip _ _ _ _ _ h1]
      simp only [evalFilterLoop, if_pos hname, hf]
    simp only [EvalSave, hloop, hEF]
  · intro fb bs hf hfb
    have hEF : EvalFilter { s with CtxHeap := ctxSet s.CtxHeap q.EvalContextRef ctx2 }
        res.QueryName = Except.ok (bs.all (fun b => b)) := by
      unfold EvalFilter
      simp only [hsplit]
      rw [evalFilterLoop_append_skip _ _ _ _ _ h1]
      simp only [evalFilterLoop, if_pos hname, hf, hfilterCtx, hfb]
      exact evalFilterLoop_skip _ _ _ _ h2
    simp only [EvalSave, hloop, hEF]
    cases hb : bs.all (fun b => b) <;> simp [hb]

/-- C5 (witness): the theorem applied to a query with Filter `[true, false]`
shows `EvalSave` returning no output and no error even though Save decoded to
`v = 7`. -/
theorem C5_witness :
    EvalSave exC5Schema exProvider exC5Res
      = ({ exC5Schema with CtxHeap := ctxSet exC5Schema.CtxHeap 0 exC5Ctx2 },
         Except.ok none) := by
  have h := (C5_filter exC5Schema exProvider exC5Res exC5Query [] [] exC5Ctx2
      [("v", CtyValue.num 7)] rfl (by intro q' hq'; simp at hq') rfl (by decide)
      (by decide) rfl).2 (okBody [true, false]) [true, false] rfl rfl
  simpa using h

theorem runTransformList_functions (bs : List (HclBody VarMap)) (ctx : EvalContext) :
    ((runTransformList bs ctx).1).Functions = ctx.Functions := by
  induction bs generalizing ctx with
  | nil => rfl
  | cons b rest ih =>
    simp only [runTransformList]
    cases hb : b ctx with
    | error e => rfl
    | ok mv => simpa [mergeVariables] using ih (mergeVariables ctx mv)

theorem runTransformList_presence (bs : List (HclBody VarMap)) (ctx : EvalContext)
    (k : String) (h : (alookup ctx.Variables k).isSome) :
    (alookup ((runTransformList bs ctx).1).Variables k).isSome := by
  induction bs generalizing ctx with
  | nil => exact h
  | cons b rest ih =>
    simp only [runTransformList]
    cases hb : b ctx with
    | error e => exact h
    | ok mv =>
      exact ih (mergeVariables ctx mv)
        (by simpa [mergeVariables] using isSome_alookup_upsertAll mv ctx.Variables k h)

theorem EvalTransforms_functions (q : QuerySchema) (tp : ResultType)
    (identifier : String) (ctx : EvalContext) :
    ((EvalTransforms q tp identifier ctx).1).Functions = ctx.Functions := by
  rw [evalTransforms_eq_scan]
  exact runTransformList_functions _ _

theorem EvalTransforms_presence (q : QuerySchema) (tp : ResultType)
    (identifier : String) (ctx : EvalContext) (k : String)
    (h : (alookup ctx.Variables k).isSome) :
    (alookup ((EvalTransforms q tp identifier ctx).1).Variables k).isSome := by
  rw [evalTransforms_eq_scan]
  exact runTransformList_presence _ _ _ h

theorem ctxSet_out_of_range (heap : List EvalContext) (i : Nat) (c : EvalContext)
    (h : ¬i < heap.length) : ctxSet heap i c = heap := by
  unfold ctxSet
  exact List.set_eq_of_length_le (Nat.le_of_not_lt h)

theorem saveStep_vars_presence (provider : ChainFunctionProvider) (res : CallResult)
    (q : QuerySchema) (heap : List EvalContext) (i : Nat) (k : String)
    (h : (alookup (ctxGet heap i).Variables k).isSome) :
    (alookup (ctxGet (ctxSet heap q.EvalContextRef
        (EvalTransforms q res.Type_ res.Identifier
          (resultContext provider res (ctxGet heap q.EvalContextRef))).1) i).Variables
      k).isSome := by
  by_cases hi : i = q.EvalContextRef
  · subst hi
    by_cases hlen : q.EvalContextRef < heap.length
    · rw [ctxGet_set_self _ _ _ hlen]
      refine EvalTransforms_presence _ _ _ _ _ ?_
      simp only [resultContext]
      exact isSome_alookup_upsertAll _ _ _ h
    · rw [ctxSet_out_of_range _ _ _ hlen]
      exact h
  · rw [ctxGet_set_ne _ _ _ _ hi]
    exact h

theorem saveStep_funs_presence (provider : ChainFunctionProvider) (res : CallResult)
    (q : QuerySchema) (heap : List EvalContext) (i : Nat) (k : String)
    (h : (alookup (ctxGet heap i).Functions k).isSome) :
    (alookup (ctxGet (ctxSet heap q.EvalContextRef
        (EvalTransforms q res.Type_ res.Identifier
          (resultContext provider res (ctxGet heap q.EvalContextRef))).1) i).Functions
      k).isSome := by
  by_cases hi : i = q.EvalContextRef
  · subst hi
    by_cases hlen : q.EvalContextRef < heap.length
    · rw [ctxGet_set_self _ _ _ hlen, EvalTransforms_functions]
      simp only [resultContext]
      exact isSome_alookup_upsertAll _ _ _ h
    · rw [ctxSet_out_of_range _ _ _ hlen]
      exact h
  · rw [ctxGet_set_ne _ _ _ _ hi]
    exact h

theorem evalSaveLoop_vars_monotone (provider : ChainFunctionProvider) (res : CallResult)
    (qs : List QuerySchema) (heap : List EvalContext) (outputs : VarMap) (i : Nat)
    (k : String) (h : (alookup (ctxGet heap i).Variables k).isSome) :
    (alookup (ctxGet (evalSaveLoop provider res qs heap outputs).1 i).Variables
      k).isSome := by
  induction qs generalizing heap outputs with
  | nil => exact h
  | cons q rest ih =>
    by_cases hn : q.Name = res.QueryName
    · simp only [evalSaveLoop, if_pos hn]
      cases htr : (EvalTransforms q res.Type_ res.Identifier
          (resultContext provider res (ctxGet heap q.EvalContextRef))).2 with
      | some e =>
        simp only [htr]
        exact saveStep_vars_presence provider res q heap i k h
      | none =>
        simp only [htr]
        cases hs : q.Saves.Options (EvalTransforms q res.Type_ res.Identifier
            (resultContext provider res (ctxGet heap q.EvalContextRef))).1 with
        | error e =>
          simp only [hs]
          exact saveStep_vars_presence provider res q heap i k h
        | ok out =>
          simp only [hs]
          exact ih _ _ (saveStep_vars_presence provider res q heap i k h)
    · simp only [evalSaveLoop, if_neg hn]
      exact ih _ _ h

theorem evalSaveLoop_funs_monotone (provider : ChainFunctionProvider) (res : CallResult)
    (qs : List QuerySchema) (heap : List EvalContext) (outputs : VarMap) (i : Nat)
    (k : String) (h : (alookup (ctxGet heap i).Functions k).isSome) :
    (alookup (ctxGet (evalSaveLoop provider res qs heap outputs).1 i).Functions
      k).isSome := by
  induction qs generalizing heap outputs with
  | nil => exact h
  | cons q rest ih =>
    by_cases hn : q.Name = res.QueryName
    · simp only [evalSaveLoop, if_pos hn]
      cases htr : (EvalTransforms q res.Type_ res.Identifier
          (resultContext provider res (ctxGet heap q.EvalContextRef))).2 with
      | some e =>
        simp only [htr]
        exact saveStep_funs_presence provider res q heap i k h
      | none =>
        simp only [htr]
        cases hs : q.Saves.Options (EvalTransforms q res.Type_ res.Identifier
            (resultContext provider res (ctxGet heap q.EvalContextRef))).1 with
        | error e =>
          simp only [hs]
          exact saveStep_funs_presence provider res q heap i k h
        | ok out =>
          simp only [hs]
          exact ih _ _ (saveStep_funs_presence provider res q heap i k h)
    · simp only [evalSaveLoop, if_neg hn]
      exact ih _ _ h

theorem evalSaveLoop_single_match_heap (provider : ChainFunctionProvider)
    (res : CallResult) (q : QuerySchema) (qs₁ qs₂ : List QuerySchema)
    (heap : List EvalContext) (outputs : VarMap)
    (h1 : ∀ q' ∈ qs₁, q'.Name ≠ res.QueryName)
    (h2 : ∀ q' ∈ qs₂, q'.Name ≠ res.QueryName)
    (hname : q.Name = res.QueryName) :
    (evalSaveLoop provider res (qs₁ ++ q :: qs₂) heap outputs).1
      = ctxSet heap q.EvalContextRef
        (EvalTransforms q res.Type_ res.Identifier
          (resultContext provider res (ctxGet heap q.EvalContextRef))).1 := by
  rw [evalSaveLoop_append_skip provider res qs₁ _ _ _ h1]
  simp only [evalSaveLoop, if_pos hname]
  cases htr : (EvalTransforms q res.Type_ res.Identifier
      (resultContext provider res (ctxGet heap q.EvalContextRef))).2 with
  | some e => simp [htr]
  | none =>
    simp only [htr]
    cases hs : q.Saves.Options (EvalTransforms q res.Type_ res.Identifier
        (resultContext provider res (ctxGet heap q.EvalContextRef))).1 with
    | error e => simp [hs]
    | ok out =>
      simp only [hs]
      rw [evalSaveLoop_skip provider res qs₂ _ _ h2]

/-! ### Claim C10 -/

/-- C10 (confirmed): after an `EvalSave` call whose result matched a
(uniquely named) query — whatever the outcome of the transform, save and
filter stages — the query's live Expression Context contains an entry for
every variable derived from the result and for the chain functions
(`balance`, `token_balance`) registered for the result's chain and block; and
no later `EvalSave` call, for any schema and result, ever removes a variable
or function entry from any context: context domains only grow, so every later
evaluation sees the leftover entries of all earlier results (their values
possibly overwritten by a later merge, never deleted). -/
theorem C10_persistence (s : DynamicSchema) (provider : ChainFunctionProvider)
    (res : CallResult) (q : QuerySchema) (qs₁ qs₂ : List QuerySchema)
    (hsplit : s.QuerySchemas = qs₁ ++ q :: qs₂)
    (hothers : ∀ q' ∈ qs₁ ++ qs₂, q'.Name ≠ res.QueryName)
    (hname : q.Name = res.QueryName)
    (href : q.EvalContextRef < s.CtxHeap.length) :
    (∀ k, k ∈ (GenerateContextVars res).map Prod.fst →
      (alookup (ctxGet (EvalSave s provider res).1.CtxHeap q.EvalContextRef).Variables
        k).isSome = true)
    ∧ (alookup (ctxGet (EvalSave s provider res).1.CtxHeap q.EvalContextRef).Functions
        "balance").isSome = true
    ∧ (alookup (ctxGet (EvalSave s provider res).1.CtxHeap q.EvalContextRef).Functions
        "token_balance").isSome = true
    ∧ (∀ (s₀ : DynamicSchema) (res₀ : CallResult) (i : Nat) (k : String),
        (alookup (ctxGet s₀.CtxHeap i).Variables k).isSome = true →
          (alookup (ctxGet (EvalSave s₀ provider res₀).1.CtxHeap i).Variables
            k).isSome = true)
    ∧ (∀ (s₀ : DynamicSchema) (res₀ : CallResult) (i : Nat) (k : String),
        (alookup (ctxGet s₀.CtxHeap i).Functions k).isSome = true →
          (alookup (ctxGet (EvalSave s₀ provider res₀).1.CtxHeap i).Functions
            k).isSome = true) := by
  have h1 : ∀ q' ∈ qs₁, q'.Name ≠ res.QueryName :=
    fun q' hq' => hothers q' (List.mem_append_left _ hq')
  have h2 : ∀ q' ∈ qs₂, q'.Name ≠ res.QueryName :=
    fun q' hq' => hothers q' (List.mem_append_right _ hq')
  have hheap : (EvalSave s provider res).1.CtxHeap
      = ctxSet s.CtxHeap q.EvalContextRef
        (EvalTransforms q res.Type_ res.Identifier
          (resultContext provider res (ctxGet s.CtxHeap q.EvalContextRef))).1 := by
    show (evalSaveLoop provider res s.QuerySchemas s.CtxHeap []).1 = _
    rw [hsplit]
    exact evalSaveLoop_single_match_heap provider res q qs₁ qs₂ _ _ h1 h2 hname
  refine ⟨?_, ?_, ?_, ?_, ?_⟩
  · intro k hk
    rw [hheap, ctxGet_set_self _ _ _ href]
    refine EvalTransforms_presence _ _ _ _ _ ?_
    simp only [resultContext]
    exact isSome_alookup_upsertAll_of_mem_keys _ _ _ hk
  · rw [hheap, ctxGet_set_self _ _ _ href, EvalTransforms_functions]
    simp only [resultContext]
    exact isSome_alookup_upsertAll_of_mem_keys _ _ _ (by simp [BuildChainFunctions])
  · rw [hheap, ctxGet_set_self _ _ _ href, EvalTransforms_functions]
    simp only [resultContext]
    exact isSome_alookup_upsertAll_of_mem_keys _ _ _ (by simp [BuildChainFunctions])
  · intro s₀ res₀ i k hk
    exact evalSaveLoop_vars_monotone provider res₀ s₀.QuerySchemas s₀.CtxHeap [] i k hk
  · intro s₀ res₀ i k hk
    exact evalSaveLoop_funs_monotone provider res₀ s₀.QuerySchemas s₀.CtxHeap [] i k hk

/-- C10 (witness): after evaluating a concrete matching result, the query's
context contains the derived `contract_address` variable and the registered
`balance` function. -/
theorem C10_witness :
    (alookup (ctxGet (EvalSave exC10Schema exProvider exC10Res).1.CtxHeap 0).Variables
      "contract_address").isSome = true
    ∧ (alookup (ctxGet (EvalSave exC10Schema exProvider exC10Res).1.CtxHeap 0).Functions
      "balance").isSome = true := by
  have h := C10_persistence exC10Schema exProvider exC10Res exC10Query [] [] rfl
    (by intro q' hq'; simp at hq') rfl (by decide)
  exact ⟨h.1 "contract_address" (by decide), h.2.1⟩

theorem alookup_foldl_upsert_of_not_mem {β : Type} (f : β → CtyValue)
    (l : List (String × β)) (m : VarMap) (k : String) (h : k ∉ l.map Prod.fst) :
    alookup (l.foldl (fun acc kv => upsert acc kv.1 (f kv.2)) m) k = alookup m k := by
  induction l generalizing m with
  | nil => rfl
  | cons hd tl ih =>
    simp only [List.map, List.mem_cons] at h
    push_neg at h
    simp only [List.foldl_cons]
    rw [ih _ h.2, alookup_upsert_of_ne _ _ _ _ h.1]

theorem alookup_foldl_upsert_of_mem {β : Type} (f : β → CtyValue)
    (l : List (String × β)) (m : VarMap) (k : String) (v : β)
    (hnd : (l.map Prod.fst).Nodup) (h : (k, v) ∈ l) :
    alookup (l.foldl (fun acc kv => upsert acc kv.1 (f kv.2)) m) k = some (f v) := by
  induction l generalizing m with
  | nil => simp at h
  | cons hd tl ih =>
    simp only [List.map, List.nodup_cons] at hnd
    simp only [List.foldl_cons]
    rcases List.mem_cons.mp h with h | h
    · obtain rfl := h.symm
      have hk : k ∉ tl.map Prod.fst := by simpa using hnd.1
      rw [alookup_foldl_upsert_of_not_mem f tl _ _ hk]
      simp [alookup_upsert_self]
    · exact ih (upsert m hd.1 (f hd.2)) hnd.2 h

/-! ### Claim C6 -/

/-- C6 (counterexample): a method result with the address-valued raw input
`spender` produces a variable `spender` bound to the nil value — the numeric
conversion `gocty.ToCtyValue(v, cty.Number)` fails on an address and its
error is discarded — not the numeric variable the claim requires for "every
other value". -/
theorem C6_counterexample :
    alookup (GenerateContextVars exC6Res) "spender" = some CtyValue.nilVal
    ∧ isNumVar (alookup (GenerateContextVars exC6Res) "spender") = false := by
  refine ⟨by decide, by decide⟩

/-- C6 (amended): `GenerateContextVars` produces `contract_address` (string,
the canonical form of the result's contract address), `blocknumber`,
`timestamp` (numbers), `block_hash` and `chain` (strings); it produces
`tx_hash`, `event_name` (strings) and `tx_index` (number) if and only if the
result is not a method-kind result; and, provided the raw input/output names
are pairwise distinct and avoid the eight reserved variable names, each named
raw value yields exactly one variable: string values map to string variables,
numeric values to numeric variables, address-valued outputs to string
variables holding the canonical hex form — and an address-valued input yields
a variable bound to the nil value (its numeric conversion fails and the error
is discarded), not a numeric variable. -/
theorem C6_amended (cr : CallResult)
    (hnd : ((cr.Inputs.map Prod.fst) ++ (cr.Outputs.map Prod.fst)).Nodup)
    (hres : ∀ k ∈ (cr.Inputs.map Prod.fst) ++ (cr.Outputs.map Prod.fst),
      k ∉ reservedVarNames) :
    alookup (GenerateContextVars cr) "contract_address"
        = some (CtyValue.str (addressString cr.ContractAddress))
    ∧ alookup (GenerateContextVars cr) "blocknumber" = some (CtyValue.num cr.BlockNumber)
    ∧ alookup (GenerateContextVars cr) "timestamp" = some (CtyValue.num cr.Timestamp)
    ∧ alookup (GenerateContextVars cr) "block_hash" = some (CtyValue.str cr.BlockHash)
    ∧ alookup (GenerateContextVars cr) "chain" = some (CtyValue.str cr.Chain)
    ∧ (cr.Type_ = ResultType.Method →
        alookup (GenerateContextVars cr) "tx_hash" = none
        ∧ alookup (GenerateContextVars cr) "event_name" = none
        ∧ alookup (GenerateContextVars cr) "tx_index" = none)
    ∧ (cr.Type_ ≠ ResultType.Method →
        alookup (GenerateContextVars cr) "tx_hash" = some (CtyValue.str cr.TxHash)
        ∧ alookup (GenerateContextVars cr) "event_name" = some (CtyValue.str cr.EventName)
        ∧ alookup (GenerateContextVars cr) "tx_index" = some (CtyValue.num cr.TxIndex))
    ∧ (∀ k v, (k, v) ∈ cr.Inputs →
        alookup (GenerateContextVars cr) k = some (inputContextVar v))
    ∧ (∀ k v, (k, v) ∈ cr.Outputs →
        alookup (GenerateContextVars cr) k = some (outputContextVar v))
    ∧ (∀ k a, (k, GoValue.addr a) ∈ cr.Inputs →
        alookup (GenerateContextVars cr) k = some CtyValue.nilVal)
    ∧ (∀ k a, (k, GoValue.addr a) ∈ cr.Outputs →
        alookup (GenerateContextVars cr) k = some (CtyValue.str (addressString a))) := by
  have hIn : ∀ k ∈ reservedVarNames, k ∉ cr.Inputs.map Prod.fst := by
    intro k hk hmem
    exact hres k (List.mem_append_left _ hmem) hk
  have hOut : ∀ k ∈ reservedVarNames, k ∉ cr.Outputs.map Prod.fst := by
    intro k hk hmem
    exact hres k (List.mem_append_right _ hmem) hk
  have hndIn : (cr.Inputs.map Prod.fst).Nodup := hnd.of_append_left
  have hndOut : (cr.Outputs.map Prod.fst).Nodup := hnd.of_append_right
  have hdisj : ∀ k ∈ cr.Inputs.map Prod.fst, k ∉ cr.Outputs.map Prod.fst :=
    fun k hk1 hk2 => (List.disjoint_of_nodup_append hnd) hk1 hk2
  have hreserved : ∀ k, k ∈ reservedVarNames →
      alookup (GenerateContextVars cr) k
        = alookup (upsertAll []
            ([("contract_address", CtyValue.str (addressString cr.ContractAddress)),
              ("blocknumber", CtyValue.num cr.BlockNumber),
              ("timestamp", CtyValue.num cr.Timestamp),
              ("block_hash", CtyValue.str cr.BlockHash),
              ("chain", CtyValue.str cr.Chain)]
            ++ (if cr.Type_ ≠ ResultType.Method then
                [("tx_hash", CtyValue.str cr.TxHash),
                 ("event_name", CtyValue.str cr.EventName),
                 ("tx_index", CtyValue.num cr.TxIndex)]
               else []))) k := by
    intro k hk
    simp only [GenerateContextVars]
    rw [alookup_foldl_upsert_of_not_mem _ _ _ _ (hOut k hk),
      alookup_foldl_upsert_of_not_mem _ _ _ _ (hIn k hk)]
    by_cases hm : cr.Type_ = ResultType.Method <;>
      simp [hm, upsertAll, upsert, alookup]
  have hInLookup : ∀ k v, (k, v) ∈ cr.Inputs →
      alookup (GenerateContextVars cr) k = some (inputContextVar v) := by
    intro k v hkv
    have hkmem : k ∈ cr.Inputs.map Prod.fst := by
      simpa using List.mem_map_of_mem Prod.fst hkv
    simp only [GenerateContextVars]
    rw [alookup_foldl_upsert_of_not_mem _ _ _ _ (hdisj k hkmem)]
    exact alookup_foldl_upsert_of_mem _ _ _ _ _ hndIn hkv
  have hOutLookup : ∀ k v, (k, v) ∈ cr.Outputs →
      alookup (GenerateContextVars cr) k = some (outputContextVar v) := by
    intro k v hkv
    simp only [GenerateContextVars]
    exact alookup_foldl_upsert_of_mem _ _ _ _ _ hndOut hkv
  refine ⟨?_, ?_, ?_, ?_, ?_, ?_, ?_, hInLookup, hOutLookup, ?_, ?_⟩
  · rw [hreserved _ (by decide)]
    by_cases hm : cr.Type_ = ResultType.Method <;> simp [hm, upsertAll, upsert, alookup]
  · rw [hreserved _ (by decide)]
    by_cases hm : cr.Type_ = ResultType.Method <;> simp [hm, upsertAll, upsert, alookup]
  · rw [hreserved _ (by decide)]
    by_cases hm : cr.Type_ = ResultType.Method <;> simp [hm, upsertAll, upsert, alookup]
  · rw [hreserved _ (by decide)]
    by_cases hm : cr.Type_ = ResultType.Method <;> simp [hm, upsertAll, upsert, alookup]
  · rw [hreserved _ (by decide)]
    by_cases hm : cr.Type_ = ResultType.Method <;> simp [hm, upsertAll, upsert, alookup]
  · intro hm
    refine ⟨?_, ?_, ?_⟩ <;>
      · rw [hreserved _ (by decide)]
        simp [hm, upsertAll, upsert, alookup]
  · intro hm
    refine ⟨?_, ?_, ?_⟩ <;>
      · rw [hreserved _ (by decide)]
        simp [hm, upsertAll, upsert, alookup]
  · intro k a hkv
    have := hInLookup k (GoValue.addr a) hkv
    simpa [inputContextVar] using this
  · intro k a hkv
    have := hOutLookup k (GoValue.addr a) hkv
    simpa [outputContextVar] using this

/-- C6 (witness): the amended theorem applied to the spec's vector — method
result, input `amount = 42`, output `owner` an address — yields a numeric
`amount`, a string `owner` holding the canonical hex form, the base result
variables, and no `tx_hash`/`event_name`/`tx_index`. -/
theorem C6_witness :
    alookup (GenerateContextVars exC6WRes) "amount" = some (CtyValue.num 42)
    ∧ alookup (GenerateContextVars exC6WRes) "owner"
        = some (CtyValue.str "0x0000000000000000000000000000000000000012")
    ∧ alookup (GenerateContextVars exC6WRes) "contract_address"
        = some (CtyValue.str (addressString 3))
    ∧ alookup (GenerateContextVars exC6WRes) "tx_hash" = none
    ∧ alookup (GenerateContextVars exC6WRes) "event_name" = none
    ∧ alookup (GenerateContextVars exC6WRes) "tx_index" = none := by
  have h := C6_amended exC6WRes (by decide) (by decide)
  have htx := h.2.2.2.2.2.1 rfl
  refine ⟨?_, ?_, h.1, htx.1, htx.2.1, htx.2.2⟩
  · have := h.2.2.2.2.2.2.2.1 "amount" (GoValue.num 42) (by decide)
    simpa [inputContextVar] using this
  · have := h.2.2.2.2.2.2.2.2.1 "owner" (GoValue.addr 18) (by decide)
    rw [this]
    decide
